import Mathlib

/-!
# A verification development for the `sf` SoundFont 2 decoder

This file gives a shallow embedding, in Lean 4, of the Go SoundFont 2
(SF2) decoding pipeline: the generic RIFF chunk reader (`chunk.parse`,
`chunk.expect`), the sample decoder (`ReadSoundFontSamples`), the Hydra
decoder (`ReadSoundFontHydra`) and the Info decoder
(`ReadSoundFontInfo`), together with theorems settling the stated
properties of the specification against the code.

Modelling conventions:
* A byte stream (Go `io.Reader`) is a `List Nat` of byte values; all
  reads are sequential, so a reader is just the list of bytes not yet
  consumed.  Machine integers are `Nat` bit patterns (`% 2^w` where Go
  overflow matters); the signed reading of a 16-bit pattern is given by
  `toInt16` where a claim speaks of signed values.
* `io.ReadFull` semantics (`readFull`): a read of `n` bytes succeeds
  iff `n` bytes remain; it reports `io.EOF` when no byte at all remains
  and `io.ErrUnexpectedEOF` when only part of the request remains.
* Fallible Go functions returning `(T, error)` become
  `Except Err (T × List Nat)`, the second component being the bytes the
  reader has not consumed yet.
* The Go `for {}` loops of the Hydra and Info decoders consume at least
  8 bytes per iteration, so they are embedded with an explicit
  iteration bound `bs.length + 1` (`hydraLoopF`, `infoLoopF`), which is
  provably large enough; this keeps every definition executable by the
  kernel.
-/

/-- A four-byte RIFF chunk tag (Go `[4]byte`). -/
structure Tag where
  b0 : Nat
  b1 : Nat
  b2 : Nat
  b3 : Nat
deriving DecidableEq, Repr

/-- Go errors distinguished by the decoder.  The Go code returns
`io.EOF`, `io.ErrUnexpectedEOF` or values built with `fmt.Errorf`; each
`fmt.Errorf` call site is mapped to one constructor below, following the
specification's error taxonomy. -/
inductive Err where
  /-- `io.EOF`: a read found no byte at all. -/
  | eof : Err
  /-- `io.ErrUnexpectedEOF`: a read found only part of its request. -/
  | unexpectedEOF : Err
  /-- `chunk.expect` saw a tag different from the expected one. -/
  | unexpectedTag (expected got : Tag) : Err
  /-- A literal four-byte signature (`sfbk`, `INFO`, ...) did not match. -/
  | unexpectedFormat : Err
  /-- A Hydra chunk size is not a multiple of its record width. -/
  | invalidChunkSize (tag : Tag) (size : Nat) : Err
  /-- An Info `ifil`/`iver` chunk whose size is not exactly 4 bytes. -/
  | malformedField (tag : Tag) : Err
  /-- An Info text chunk exceeding its byte cap. -/
  | fieldTooLarge (tag : Tag) : Err
  /-- A recognized Info tag seen twice. -/
  | duplicateField (tag : Tag) : Err
  /-- A mandatory Hydra tag never seen by end of the pdta list. -/
  | missingChunk (tag : Tag) : Err
  /-- The mandatory Info `ifil` chunk never seen. -/
  | missingRequiredField : Err
deriving DecidableEq, Repr

/-- The four bytes of a tag, in order. -/
def tagBytes (t : Tag) : List Nat := [t.b0, t.b1, t.b2, t.b3]

/-- Rebuild a tag from a four-byte list (used after `readFull 4`). -/
def tagOfList : List Nat → Tag
  | [a, b, c, d] => ⟨a, b, c, d⟩
  | _ => ⟨0, 0, 0, 0⟩

/-- `io.ReadFull r buf` for `n = len(buf)`: succeeds returning the first
`n` bytes and the rest; `io.EOF` when the stream is empty (and `n > 0`);
`io.ErrUnexpectedEOF` when the stream is nonempty but shorter than `n`. -/
def readFull (n : Nat) (bs : List Nat) : Except Err (List Nat × List Nat) :=
  if n ≤ bs.length then .ok (bs.take n, bs.drop n)
  else if bs.length = 0 then .error .eof
  else .error .unexpectedEOF

/-- Little-endian 16-bit value from the two bytes at offset `o`. -/
def le16at (d : List Nat) (o : Nat) : Nat :=
  d.getD o 0 + 256 * d.getD (o + 1) 0

/-- Little-endian 32-bit value from the four bytes at offset `o`. -/
def le32at (d : List Nat) (o : Nat) : Nat :=
  d.getD o 0 + 256 * d.getD (o + 1) 0 + 65536 * d.getD (o + 2) 0 +
    16777216 * d.getD (o + 3) 0

/-- The signed reading of a 16-bit pattern (two's complement). -/
def toInt16 (n : Nat) : Int :=
  if n % 65536 < 32768 then (n % 65536 : Nat) else (n % 65536 : Nat) - 65536

/-- Every entry of the list is a byte value. -/
def AllBytes (d : List Nat) : Prop := ∀ b ∈ d, b < 256

instance : DecidablePred AllBytes := fun d =>
  inferInstanceAs (Decidable (∀ b ∈ d, b < 256))

/-- Go `chunk`: a four-byte id, a declared size and the payload.
`parseChunk` always produces `data.length = size`. -/
structure Chunk where
  id : Tag
  size : Nat
  data : List Nat
deriving DecidableEq, Repr

/-- Go `chunk.parse`: read 4 tag bytes, a 4-byte little-endian size and
`size` payload bytes, propagating the `io.ReadFull`/`binary.Read`
errors unchanged. -/
def parseChunk (bs : List Nat) : Except Err (Chunk × List Nat) :=
  match readFull 4 bs with
  | .error e => .error e
  | .ok (idb, bs1) =>
    match readFull 4 bs1 with
    | .error e => .error e
    | .ok (szb, bs2) =>
      match readFull (le32at szb 0) bs2 with
      | .error e => .error e
      | .ok (dat, bs3) => .ok (⟨tagOfList idb, le32at szb 0, dat⟩, bs3)

/-- Go `chunk.expect`: `parse`, then compare the id with the expected
one. -/
def expectChunk (t : Tag) (bs : List Nat) : Except Err (Chunk × List Nat) :=
  match parseChunk bs with
  | .error e => .error e
  | .ok (ck, rest) =>
    if ck.id = t then .ok (ck, rest) else .error (.unexpectedTag t ck.id)

/-- The `smpl` tag. -/
def smplTag : Tag := ⟨115, 109, 112, 108⟩
/-- The `sm24` tag. -/
def sm24Tag : Tag := ⟨115, 109, 50, 52⟩

/-- Go `SoundFontSamples`; the `int16`/`int8` sample values are stored
as their bit patterns (`Nat` below `2^16` resp. `2^8`). -/
structure SoundFontSamples where
  SamplesHigher : List Nat
  SamplesLower : List Nat
deriving DecidableEq, Repr

/-- Go `ReadSoundFontSamples`: an `smpl` chunk is mandatory; each sample
is computed exactly as in the source,
`int16(data[i*2+1])<<8 | int16(data[i*2])<<8` (note: the low byte is
also shifted left by 8 — this is the code as written).  An `sm24` chunk
is then attempted; `io.EOF` there is accepted as absence, and when
present each `sm24` payload byte becomes one `int8` sample with no
length validation. -/
def ReadSoundFontSamples (bs : List Nat) :
    Except Err (SoundFontSamples × List Nat) :=
  match expectChunk smplTag bs with
  | .error e => .error e
  | .ok (smpl, bs1) =>
    let higher := (List.range (smpl.size / 2)).map (fun i =>
      Nat.lor ((smpl.data.getD (i * 2 + 1) 0 <<< 8) % 65536)
        ((smpl.data.getD (i * 2) 0 <<< 8) % 65536))
    match expectChunk sm24Tag bs1 with
    | .error .eof => .ok (⟨higher, []⟩, bs1)
    | .error e => .error e
    | .ok (sm24, bs2) =>
      .ok (⟨higher, (List.range sm24.size).map (fun i => sm24.data.getD i 0)⟩, bs2)

/-- Serialize one chunk: tag, little-endian 32-bit size, payload. -/
def enc32 (n : Nat) : List Nat :=
  [n % 256, n / 256 % 256, n / 65536 % 256, n / 16777216 % 256]

/-- Little-endian 16-bit serialization. -/
def enc16 (n : Nat) : List Nat := [n % 256, n / 256 % 256]

/-- The byte string of one chunk with tag `t` and payload `d`. -/
def mkChunkBytes (t : Tag) (d : List Nat) : List Nat :=
  tagBytes t ++ enc32 d.length ++ d

/-- The byte string of a sequence of chunks. -/
def chunksBytes (cks : List (Tag × List Nat)) : List Nat :=
  (cks.map (fun p => mkChunkBytes p.1 p.2)).flatten

/-! ## Hydra record shapes (Go `part_000`)

The Go decoder reads each record with `binary.Read(..., LittleEndian, ...)`
(or, for the bag chunks, with explicit byte arithmetic), consuming the
record's bytes in field order; each decoder below takes the unread
bytes of the chunk and returns the record plus the remaining bytes, all
multi-byte fields little-endian.  Field values are bit patterns (`Nat`). -/

/-- Go `PresetHeader` (38 bytes): name(20), preset(2), bank(2),
bagNdx(2), library(4), genre(4), morphology(4). -/
structure PresetHeader where
  PresetName : List Nat
  Preset : Nat
  Bank : Nat
  PresetBagNdx : Nat
  Library : Nat
  Genre : Nat
  Morphology : Nat
deriving DecidableEq, Repr

/-- Go anonymous `PBag` entry (4 bytes): genIndex(2), modIndex(2). -/
structure PBagRec where
  GenIndex : Nat
  ModIndex : Nat
deriving DecidableEq, Repr

/-- Go `Modulator` (10 bytes): five little-endian 16-bit fields. -/
structure Modulator where
  ModSrcOper : Nat
  ModDestOper : Nat
  ModAmount : Nat
  ModAmtSrcOper : Nat
  ModTransOper : Nat
deriving DecidableEq, Repr

/-- Go `Generator` (4 bytes): oper(2), amount(2). -/
structure Generator where
  GenOper : Nat
  GenAmount : Nat
deriving DecidableEq, Repr

/-- Go `Instrument` (22 bytes): name(20), bagNdx(2). -/
structure Instrument where
  Name : List Nat
  InstBagNdx : Nat
deriving DecidableEq, Repr

/-- Go anonymous `IBag` entry (4 bytes): instGenIndex(2), instModIndex(2). -/
structure IBagRec where
  InstGenIndex : Nat
  InstModIndex : Nat
deriving DecidableEq, Repr

/-- Go `SampleHeader` (46 bytes): name(20), start(4), end(4),
startloop(4), endloop(4), sampleRate(4), originalPitch(1),
pitchCorrection(1), sampleLink(2), sampleType(2). -/
structure SampleHeader where
  SampleName : List Nat
  Start : Nat
  End : Nat
  Startloop : Nat
  Endloop : Nat
  SampleRate : Nat
  OriginalPitch : Nat
  PitchCorrection : Nat
  SampleLink : Nat
  SampleType : Nat
deriving DecidableEq, Repr

/-- Decode one 38-byte preset header from the front of `u`. -/
def decodePresetHeader (u : List Nat) : PresetHeader × List Nat :=
  (⟨u.take 20, le16at u 20, le16at u 22, le16at u 24,
    le32at u 26, le32at u 30, le32at u 34⟩, u.drop 38)

/-- Decode one 4-byte preset bag entry from the front of `u`
(Go: `GenIndex = data[4i+1]<<8 | data[4i]`, likewise `ModIndex`). -/
def decodePBagRec (u : List Nat) : PBagRec × List Nat :=
  (⟨le16at u 0, le16at u 2⟩, u.drop 4)

/-- Decode one 10-byte modulator from the front of `u`. -/
def decodeModulator (u : List Nat) : Modulator × List Nat :=
  (⟨le16at u 0, le16at u 2, le16at u 4, le16at u 6, le16at u 8⟩, u.drop 10)

/-- Decode one 4-byte generator from the front of `u`. -/
def decodeGenerator (u : List Nat) : Generator × List Nat :=
  (⟨le16at u 0, le16at u 2⟩, u.drop 4)

/-- Decode one 22-byte instrument from the front of `u`. -/
def decodeInstrument (u : List Nat) : Instrument × List Nat :=
  (⟨u.take 20, le16at u 20⟩, u.drop 22)

/-- Decode one 4-byte instrument bag entry from the front of `u`. -/
def decodeIBagRec (u : List Nat) : IBagRec × List Nat :=
  (⟨le16at u 0, le16at u 2⟩, u.drop 4)

/-- Decode one 46-byte sample header from the front of `u`. -/
def decodeSampleHeader (u : List Nat) : SampleHeader × List Nat :=
  (⟨u.take 20, le32at u 20, le32at u 24, le32at u 28, le32at u 32,
    le32at u 36, u.getD 40 0, u.getD 41 0, le16at u 42, le16at u 44⟩,
   u.drop 46)

/-- Decode `k` records sequentially from `d`, as the Go loops do
(`k = chunk.size / width`, reads from a reader over `chunk.data`). -/
def decodeRecords {α : Type} (dec : List Nat → α × List Nat) :
    Nat → List Nat → List α
  | 0, _ => []
  | k + 1, d => (dec d).1 :: decodeRecords dec k (dec d).2

/-- Re-encode a preset header in its 38-byte layout. -/
def encodePresetHeader (p : PresetHeader) : List Nat :=
  p.PresetName ++ enc16 p.Preset ++ enc16 p.Bank ++ enc16 p.PresetBagNdx ++
    enc32 p.Library ++ enc32 p.Genre ++ enc32 p.Morphology

/-- Re-encode a preset bag entry in its 4-byte layout. -/
def encodePBagRec (p : PBagRec) : List Nat := enc16 p.GenIndex ++ enc16 p.ModIndex

/-- Re-encode a modulator in its 10-byte layout. -/
def encodeModulator (m : Modulator) : List Nat :=
  enc16 m.ModSrcOper ++ enc16 m.ModDestOper ++ enc16 m.ModAmount ++
    enc16 m.ModAmtSrcOper ++ enc16 m.ModTransOper

/-- Re-encode a generator in its 4-byte layout. -/
def encodeGenerator (g : Generator) : List Nat := enc16 g.GenOper ++ enc16 g.GenAmount

/-- Re-encode an instrument in its 22-byte layout. -/
def encodeInstrument (i : Instrument) : List Nat := i.Name ++ enc16 i.InstBagNdx

/-- Re-encode an instrument bag entry in its 4-byte layout. -/
def encodeIBagRec (p : IBagRec) : List Nat :=
  enc16 p.InstGenIndex ++ enc16 p.InstModIndex

/-- Re-encode a sample header in its 46-byte layout. -/
def encodeSampleHeader (s : SampleHeader) : List Nat :=
  s.SampleName ++ enc32 s.Start ++ enc32 s.End ++ enc32 s.Startloop ++
    enc32 s.Endloop ++ enc32 s.SampleRate ++ [s.OriginalPitch % 256] ++
    [s.PitchCorrection % 256] ++ enc16 s.SampleLink ++ enc16 s.SampleType

/-- Go `SoundFontHydra`: the nine flat record arrays. -/
structure SoundFontHydra where
  Headers : List PresetHeader
  PBag : List PBagRec
  PresetModulators : List Modulator
  PresetGenerators : List Generator
  Instuments : List Instrument
  IBag : List IBagRec
  InstrumentModulators : List Modulator
  InstrumentGenerators : List Generator
  Samples : List SampleHeader
deriving DecidableEq, Repr

/-- The empty Hydra value (Go zero value of `SoundFontHydra`). -/
def hydraInit : SoundFontHydra := ⟨[], [], [], [], [], [], [], [], []⟩

/-- The `phdr` tag. -/
def phdrTag : Tag := ⟨112, 104, 100, 114⟩
/-- The `pbag` tag. -/
def pbagTag : Tag := ⟨112, 98, 97, 103⟩
/-- The `pmod` tag. -/
def pmodTag : Tag := ⟨112, 109, 111, 100⟩
/-- The `pgen` tag. -/
def pgenTag : Tag := ⟨112, 103, 101, 110⟩
/-- The `inst` tag. -/
def instTag : Tag := ⟨105, 110, 115, 116⟩
/-- The `ibag` tag. -/
def ibagTag : Tag := ⟨105, 98, 97, 103⟩
/-- The `imod` tag. -/
def imodTag : Tag := ⟨105, 109, 111, 100⟩
/-- The `igen` tag. -/
def igenTag : Tag := ⟨105, 103, 101, 110⟩
/-- The `shdr` tag. -/
def shdrTag : Tag := ⟨115, 104, 100, 114⟩

/-- The nine recognized Hydra tags, in the Go insertion order. -/
def hydraTagList : List Tag :=
  [phdrTag, pbagTag, pmodTag, pgenTag, instTag, ibagTag, imodTag, igenTag, shdrTag]

/-- The fixed record width of each recognized Hydra tag. -/
def hydraWidth (t : Tag) : Nat :=
  if t = phdrTag then 38
  else if t = pbagTag then 4
  else if t = pmodTag then 10
  else if t = pgenTag then 4
  else if t = instTag then 22
  else if t = ibagTag then 4
  else if t = imodTag then 10
  else if t = igenTag then 4
  else if t = shdrTag then 46
  else 1

/-- The per-tag `switch` body of Go `ReadSoundFontHydra`: check the
size divisibility and rebuild the tag's array from the chunk payload.
(`parseChunk` guarantees `ck.data.length = ck.size`, so the Go
`binary.Read` calls never run short.)  Unrecognized tags are handled
by the loop, never here; the catch-all keeps the function total. -/
def processHydraChunk (s : SoundFontHydra) (ck : Chunk) :
    Except Err SoundFontHydra :=
  if ck.id = phdrTag then
    if ck.size % 38 ≠ 0 then .error (.invalidChunkSize ck.id ck.size)
    else .ok { s with Headers := decodeRecords decodePresetHeader (ck.size / 38) ck.data }
  else if ck.id = pbagTag then
    if ck.size % 4 ≠ 0 then .error (.invalidChunkSize ck.id ck.size)
    else .ok { s with PBag := decodeRecords decodePBagRec (ck.size / 4) ck.data }
  else if ck.id = pmodTag then
    if ck.size % 10 ≠ 0 then .error (.invalidChunkSize ck.id ck.size)
    else .ok { s with PresetModulators := decodeRecords decodeModulator (ck.size / 10) ck.data }
  else if ck.id = pgenTag then
    if ck.size % 4 ≠ 0 then .error (.invalidChunkSize ck.id ck.size)
    else .ok { s with PresetGenerators := decodeRecords decodeGenerator (ck.size / 4) ck.data }
  else if ck.id = instTag then
    if ck.size % 22 ≠ 0 then .error (.invalidChunkSize ck.id ck.size)
    else .ok { s with Instuments := decodeRecords decodeInstrument (ck.size / 22) ck.data }
  else if ck.id = ibagTag then
    if ck.size % 4 ≠ 0 then .error (.invalidChunkSize ck.id ck.size)
    else .ok { s with IBag := decodeRecords decodeIBagRec (ck.size / 4) ck.data }
  else if ck.id = imodTag then
    if ck.size % 10 ≠ 0 then .error (.invalidChunkSize ck.id ck.size)
    else .ok { s with InstrumentModulators := decodeRecords decodeModulator (ck.size / 10) ck.data }
  else if ck.id = igenTag then
    if ck.size % 4 ≠ 0 then .error (.invalidChunkSize ck.id ck.size)
    else .ok { s with InstrumentGenerators := decodeRecords decodeGenerator (ck.size / 4) ck.data }
  else if ck.id = shdrTag then
    if ck.size % 46 ≠ 0 then .error (.invalidChunkSize ck.id ck.size)
    else .ok { s with Samples := decodeRecords decodeSampleHeader (ck.size / 46) ck.data }
  else .ok s

/-- The `pdtaChunks` seen-map of Go `ReadSoundFontHydra`, as nine
booleans. -/
structure HydraSeen where
  phdr : Bool
  pbag : Bool
  pmod : Bool
  pgen : Bool
  inst : Bool
  ibag : Bool
  imod : Bool
  igen : Bool
  shdr : Bool
deriving DecidableEq, Repr

/-- All nine tags unseen (`false` in the Go map). -/
def hydraSeenNone : HydraSeen :=
  ⟨false, false, false, false, false, false, false, false, false⟩

/-- Mark a recognized tag as seen (`pdtaChunks[chunk.id] = true`). -/
def markHydraSeen (sn : HydraSeen) (t : Tag) : HydraSeen :=
  if t = phdrTag then { sn with phdr := true }
  else if t = pbagTag then { sn with pbag := true }
  else if t = pmodTag then { sn with pmod := true }
  else if t = pgenTag then { sn with pgen := true }
  else if t = instTag then { sn with inst := true }
  else if t = ibagTag then { sn with ibag := true }
  else if t = imodTag then { sn with imod := true }
  else if t = igenTag then { sn with igen := true }
  else if t = shdrTag then { sn with shdr := true }
  else sn

/-- The end-of-input check of Go `ReadSoundFontHydra`: every recognized
tag must have been seen, else the decode fails naming a missing tag.
(Go iterates its map in unspecified order; the check below uses the
insertion order, which names the same tag whenever at most one is
missing — the only situation the specification speaks about.) -/
def hydraFinish (s : SoundFontHydra) (sn : HydraSeen) :
    Except Err SoundFontHydra :=
  if ¬sn.phdr then .error (.missingChunk phdrTag)
  else if ¬sn.pbag then .error (.missingChunk pbagTag)
  else if ¬sn.pmod then .error (.missingChunk pmodTag)
  else if ¬sn.pgen then .error (.missingChunk pgenTag)
  else if ¬sn.inst then .error (.missingChunk instTag)
  else if ¬sn.ibag then .error (.missingChunk ibagTag)
  else if ¬sn.imod then .error (.missingChunk imodTag)
  else if ¬sn.igen then .error (.missingChunk igenTag)
  else if ¬sn.shdr then .error (.missingChunk shdrTag)
  else .ok s

/-- The Go `for {}` loop of `ReadSoundFontHydra`, with an explicit
iteration bound.  Each successful `chunk.parse` consumes at least 8
bytes, so `fuel > bs.length` iterations always suffice; the `fuel = 0`
branch is unreachable under that bound (any value would do there). -/
def hydraLoopF : Nat → SoundFontHydra → HydraSeen → List Nat →
    Except Err SoundFontHydra
  | 0, _, _, _ => .error .eof
  | fuel + 1, s, sn, bs =>
    match parseChunk bs with
    | .error .eof => hydraFinish s sn
    | .error e => .error e
    | .ok (ck, rest) =>
      if ck.id ∈ hydraTagList then
        match processHydraChunk s ck with
        | .error e => .error e
        | .ok s' => hydraLoopF fuel s' (markHydraSeen sn ck.id) rest
      else hydraLoopF fuel s sn rest

/-- Run the Hydra loop from a state, with the sufficient bound. -/
def hydraRun (s : SoundFontHydra) (sn : HydraSeen) (bs : List Nat) :
    Except Err SoundFontHydra :=
  hydraLoopF (bs.length + 1) s sn bs

/-- Go `ReadSoundFontHydra`: iterate chunks from the reader until
end-of-input, then require all nine tags. -/
def ReadSoundFontHydra (bs : List Nat) : Except Err SoundFontHydra :=
  hydraRun hydraInit hydraSeenNone bs

/-- Read one seen-flag of the Hydra map. -/
def hydraSeenGet (sn : HydraSeen) (t : Tag) : Bool :=
  if t = phdrTag then sn.phdr
  else if t = pbagTag then sn.pbag
  else if t = pmodTag then sn.pmod
  else if t = pgenTag then sn.pgen
  else if t = instTag then sn.inst
  else if t = ibagTag then sn.ibag
  else if t = imodTag then sn.imod
  else if t = igenTag then sn.igen
  else if t = shdrTag then sn.shdr
  else false

/-- One loop iteration's effect on the Hydra state, at the level of a
(tag, payload) pair: recognized well-sized chunks replace their array,
anything else leaves the state unchanged. -/
def applyHydraChunk (s : SoundFontHydra) (p : Tag × List Nat) : SoundFontHydra :=
  match processHydraChunk s ⟨p.1, p.2.length, p.2⟩ with
  | .ok s' => s'
  | .error _ => s

/-- One loop iteration's effect on the Hydra seen-map. -/
def hydraSeenStep (sn : HydraSeen) (p : Tag × List Nat) : HydraSeen :=
  if p.1 ∈ hydraTagList then markHydraSeen sn p.1 else sn

/-- The seen-map after iterating a chunk sequence. -/
def hydraSeenFold (sn : HydraSeen) (cks : List (Tag × List Nat)) : HydraSeen :=
  cks.foldl hydraSeenStep sn

/-- Well-formedness of a structured pdta chunk sequence: every payload
length is encodable in 32 bits and every recognized chunk's length is a
multiple of its record width (so the loop never aborts on it). -/
def hydraWF (cks : List (Tag × List Nat)) : Prop :=
  ∀ p ∈ cks, p.2.length < 4294967296 ∧
    (p.1 ∈ hydraTagList → p.2.length % hydraWidth p.1 = 0)

instance : DecidablePred hydraWF := fun cks =>
  inferInstanceAs (Decidable (∀ p ∈ cks, _ ∧ _))

/-- The length of the record array a Hydra value holds for a tag. -/
def hydraLens (s : SoundFontHydra) (t : Tag) : Nat :=
  if t = phdrTag then s.Headers.length
  else if t = pbagTag then s.PBag.length
  else if t = pmodTag then s.PresetModulators.length
  else if t = pgenTag then s.PresetGenerators.length
  else if t = instTag then s.Instuments.length
  else if t = ibagTag then s.IBag.length
  else if t = imodTag then s.InstrumentModulators.length
  else if t = igenTag then s.InstrumentGenerators.length
  else if t = shdrTag then s.Samples.length
  else 0

/-- The payload of the last chunk carrying tag `t` in the sequence
(`[]` when the tag never occurs). -/
def lastDataOf (t : Tag) (cks : List (Tag × List Nat)) : List Nat :=
  cks.foldl (fun acc p => if p.1 = t then p.2 else acc) []

/-! ## Info decoder (Go `part_002`) -/

/-- A version pair (Go anonymous `struct { Major, Minor uint16 }`). -/
structure SFVersion where
  Major : Nat
  Minor : Nat
deriving DecidableEq, Repr

/-- Go `SoundFontInfo`; the Go `string` fields are byte lists. -/
structure SoundFontInfo where
  SfVersion : SFVersion
  Engine : List Nat
  Name : List Nat
  ROM : List Nat
  ROMVer : SFVersion
  CreationDate : List Nat
  Engineers : List Nat
  Product : List Nat
  Copyright : List Nat
  Comments : List Nat
  Software : List Nat
deriving DecidableEq, Repr

/-- The Go zero value of `SoundFontInfo`. -/
def infoInit : SoundFontInfo := ⟨⟨0, 0⟩, [], [], [], ⟨0, 0⟩, [], [], [], [], [], []⟩

/-- The ASCII bytes of the default sound-engine literal `"EMU8000"`. -/
def EMU8000 : List Nat := [69, 77, 85, 56, 48, 48, 48]

/-- The `ifil` tag. -/
def ifilTag : Tag := ⟨105, 102, 105, 108⟩
/-- The `isng` tag. -/
def isngTag : Tag := ⟨105, 115, 110, 103⟩
/-- The `INAM` tag. -/
def inamTag : Tag := ⟨73, 78, 65, 77⟩
/-- The `irom` tag. -/
def iromTag : Tag := ⟨105, 114, 111, 109⟩
/-- The `iver` tag. -/
def iverTag : Tag := ⟨105, 118, 101, 114⟩
/-- The `ICRD` tag. -/
def icrdTag : Tag := ⟨73, 67, 82, 68⟩
/-- The `IENG` tag. -/
def iengTag : Tag := ⟨73, 69, 78, 71⟩
/-- The `IPRD` tag. -/
def iprdTag : Tag := ⟨73, 80, 82, 68⟩
/-- The `ICOP` tag. -/
def icopTag : Tag := ⟨73, 67, 79, 80⟩
/-- The `ICMT` tag. -/
def icmtTag : Tag := ⟨73, 67, 77, 84⟩
/-- The `ISFT` tag. -/
def isftTag : Tag := ⟨73, 83, 70, 84⟩

/-- The eleven recognized Info tags, in the Go insertion order. -/
def infoTagList : List Tag :=
  [ifilTag, isngTag, inamTag, iromTag, iverTag, icrdTag, iengTag,
   iprdTag, icopTag, icmtTag, isftTag]

/-- The `infoChunks` seen-map of Go `ReadSoundFontInfo`. -/
structure InfoSeen where
  ifil : Bool
  isng : Bool
  inam : Bool
  irom : Bool
  iver : Bool
  icrd : Bool
  ieng : Bool
  iprd : Bool
  icop : Bool
  icmt : Bool
  isft : Bool
deriving DecidableEq, Repr

/-- All eleven tags unseen. -/
def infoSeenNone : InfoSeen :=
  ⟨false, false, false, false, false, false, false, false, false, false, false⟩

/-- Has this recognized tag been seen already? -/
def infoSeenGet (sn : InfoSeen) (t : Tag) : Bool :=
  if t = ifilTag then sn.ifil
  else if t = isngTag then sn.isng
  else if t = inamTag then sn.inam
  else if t = iromTag then sn.irom
  else if t = iverTag then sn.iver
  else if t = icrdTag then sn.icrd
  else if t = iengTag then sn.ieng
  else if t = iprdTag then sn.iprd
  else if t = icopTag then sn.icop
  else if t = icmtTag then sn.icmt
  else if t = isftTag then sn.isft
  else false

/-- Mark a recognized tag as seen. -/
def markInfoSeen (sn : InfoSeen) (t : Tag) : InfoSeen :=
  if t = ifilTag then { sn with ifil := true }
  else if t = isngTag then { sn with isng := true }
  else if t = inamTag then { sn with inam := true }
  else if t = iromTag then { sn with irom := true }
  else if t = iverTag then { sn with iver := true }
  else if t = icrdTag then { sn with icrd := true }
  else if t = iengTag then { sn with ieng := true }
  else if t = iprdTag then { sn with iprd := true }
  else if t = icopTag then { sn with icop := true }
  else if t = icmtTag then { sn with icmt := true }
  else if t = isftTag then { sn with isft := true }
  else sn

/-- The per-tag `switch` body of Go `ReadSoundFontInfo`: enforce the
size rule of the tag and store its payload.  `ifil`/`iver` must be
exactly 4 bytes (two little-endian 16-bit version numbers); the text
tags are capped at 256 bytes (65536 for `ICMT`) and stored verbatim. -/
def processInfoChunk (s : SoundFontInfo) (ck : Chunk) :
    Except Err SoundFontInfo :=
  if ck.id = ifilTag then
    if ck.size ≠ 4 then .error (.malformedField ck.id)
    else .ok { s with SfVersion := ⟨le16at ck.data 0, le16at ck.data 2⟩ }
  else if ck.id = isngTag then
    if ck.size > 256 then .error (.fieldTooLarge ck.id)
    else .ok { s with Engine := ck.data }
  else if ck.id = inamTag then
    if ck.size > 256 then .error (.fieldTooLarge ck.id)
    else .ok { s with Name := ck.data }
  else if ck.id = iromTag then
    if ck.size > 256 then .error (.fieldTooLarge ck.id)
    else .ok { s with ROM := ck.data }
  else if ck.id = iverTag then
    if ck.size ≠ 4 then .error (.malformedField ck.id)
    else .ok { s with ROMVer := ⟨le16at ck.data 0, le16at ck.data 2⟩ }
  else if ck.id = icrdTag then
    if ck.size > 256 then .error (.fieldTooLarge ck.id)
    else .ok { s with CreationDate := ck.data }
  else if ck.id = iengTag then
    if ck.size > 256 then .error (.fieldTooLarge ck.id)
    else .ok { s with Engineers := ck.data }
  else if ck.id = iprdTag then
    if ck.size > 256 then .error (.fieldTooLarge ck.id)
    else .ok { s with Product := ck.data }
  else if ck.id = icopTag then
    if ck.size > 256 then .error (.fieldTooLarge ck.id)
    else .ok { s with Copyright := ck.data }
  else if ck.id = icmtTag then
    if ck.size > 65536 then .error (.fieldTooLarge ck.id)
    else .ok { s with Comments := ck.data }
  else if ck.id = isftTag then
    if ck.size > 256 then .error (.fieldTooLarge ck.id)
    else .ok { s with Software := ck.data }
  else .ok s

/-- The end-of-input checks of Go `ReadSoundFontInfo`: a missing `ifil`
rejects the file; a missing `isng` falls back to `"EMU8000"`. -/
def infoFinish (s : SoundFontInfo) (sn : InfoSeen) :
    Except Err SoundFontInfo :=
  if ¬sn.ifil then .error .missingRequiredField
  else if ¬sn.isng then .ok { s with Engine := EMU8000 }
  else .ok s

/-- The Go `for {}` loop of `ReadSoundFontInfo`, with an explicit
iteration bound (see `hydraLoopF`).  A recognized tag seen twice fails
with `DuplicateField` before its payload is interpreted. -/
def infoLoopF : Nat → SoundFontInfo → InfoSeen → List Nat →
    Except Err SoundFontInfo
  | 0, _, _, _ => .error .eof
  | fuel + 1, s, sn, bs =>
    match parseChunk bs with
    | .error .eof => infoFinish s sn
    | .error e => .error e
    | .ok (ck, rest) =>
      if ck.id ∈ infoTagList then
        if infoSeenGet sn ck.id then .error (.duplicateField ck.id)
        else
          match processInfoChunk s ck with
          | .error e => .error e
          | .ok s' => infoLoopF fuel s' (markInfoSeen sn ck.id) rest
      else infoLoopF fuel s sn rest

/-- Run the Info loop from a state, with the sufficient bound. -/
def infoRun (s : SoundFontInfo) (sn : InfoSeen) (bs : List Nat) :
    Except Err SoundFontInfo :=
  infoLoopF (bs.length + 1) s sn bs

/-- The ASCII bytes of the literal `"INFO"`. -/
def INFOBytes : List Nat := [73, 78, 70, 79]

/-- Go `ReadSoundFontInfo`: read the literal `INFO` list type, then
iterate chunks until end-of-input and apply the final checks. -/
def ReadSoundFontInfo (bs : List Nat) : Except Err SoundFontInfo :=
  match readFull 4 bs with
  | .error e => .error e
  | .ok (hd, rest) =>
    if hd = INFOBytes then infoRun infoInit infoSeenNone rest
    else .error .unexpectedFormat

/-- One loop iteration's effect on the Info state, at the level of a
(tag, payload) pair (duplicate detection lives in the loop, not here). -/
def applyInfoChunk (s : SoundFontInfo) (p : Tag × List Nat) : SoundFontInfo :=
  match processInfoChunk s ⟨p.1, p.2.length, p.2⟩ with
  | .ok s' => s'
  | .error _ => s

/-- One loop iteration's effect on the Info seen-map. -/
def infoSeenStep (sn : InfoSeen) (p : Tag × List Nat) : InfoSeen :=
  if p.1 ∈ infoTagList then markInfoSeen sn p.1 else sn

/-- The Info seen-map after iterating a chunk sequence. -/
def infoSeenFold (sn : InfoSeen) (cks : List (Tag × List Nat)) : InfoSeen :=
  cks.foldl infoSeenStep sn

/-- The per-tag size rule of the Info decoder. -/
def infoSizeOK (t : Tag) (n : Nat) : Prop :=
  if t = ifilTag ∨ t = iverTag then n = 4
  else if t = icmtTag then n ≤ 65536
  else n ≤ 256

instance (t : Tag) (n : Nat) : Decidable (infoSizeOK t n) := by
  unfold infoSizeOK; infer_instance

/-- Well-formedness of a structured Info chunk sequence: payload
lengths encodable in 32 bits, recognized chunks obeying their size
rule, and no recognized tag occurring twice (so the loop never aborts). -/
def infoWF (cks : List (Tag × List Nat)) : Prop :=
  (∀ p ∈ cks, p.2.length < 4294967296 ∧
    (p.1 ∈ infoTagList → infoSizeOK p.1 p.2.length)) ∧
  List.Pairwise (fun p q : Tag × List Nat => p.1 ∈ infoTagList → p.1 ≠ q.1) cks

instance : DecidablePred infoWF := fun cks => by
  unfold infoWF; infer_instance

/-! ## Reader and framing lemmas -/

theorem readFull_exact (n : Nat) (l r : List Nat) (h : l.length = n) :
    readFull n (l ++ r) = .ok (l, r) := by
  unfold readFull
  rw [if_pos (by simp [← h]), List.take_left' h, List.drop_left' h]

theorem readFull_ok (n : Nat) (bs : List Nat) (p : List Nat × List Nat)
    (h : readFull n bs = .ok p) :
    p.1 = bs.take n ∧ p.2 = bs.drop n ∧ n ≤ bs.length := by
  unfold readFull at h
  split at h
  · cases h; exact ⟨rfl, rfl, by assumption⟩
  · split at h <;> cases h

theorem le32at_enc32 (n : Nat) (h : n < 4294967296) : le32at (enc32 n) 0 = n := by
  simp only [le32at, enc32, List.getD_cons_zero, List.getD_cons_succ]
  omega

theorem tagOfList_tagBytes (t : Tag) : tagOfList (tagBytes t) = t := rfl

theorem parseChunk_ok_lt (bs : List Nat) (ck : Chunk) (rest : List Nat)
    (h : parseChunk bs = .ok (ck, rest)) : rest.length < bs.length := by
  unfold parseChunk at h
  split at h
  · contradiction
  next idb bs1 h1 =>
    split at h
    · contradiction
    next szb bs2 h2 =>
      split at h
      · contradiction
      next dat bs3 h3 =>
        cases h
        obtain ⟨-, e1, l1⟩ := readFull_ok _ _ _ h1
        obtain ⟨-, e2, l2⟩ := readFull_ok _ _ _ h2
        obtain ⟨-, e3, -⟩ := readFull_ok _ _ _ h3
        subst e1 e2 e3
        simp only [List.length_drop]
        omega

theorem parseChunk_mk (t : Tag) (d tail : List Nat)
    (h : d.length < 4294967296) :
    parseChunk (mkChunkBytes t d ++ tail) = .ok (⟨t, d.length, d⟩, tail) := by
  simp only [parseChunk, mkChunkBytes, List.append_assoc,
    readFull_exact 4 (tagBytes t) (enc32 d.length ++ (d ++ tail)) (by simp [tagBytes]),
    readFull_exact 4 (enc32 d.length) (d ++ tail) (by simp [enc32]),
    le32at_enc32 d.length h, readFull_exact d.length d tail rfl,
    tagOfList_tagBytes]

theorem parseChunk_nil : parseChunk [] = .error .eof := rfl

/-! ## Hydra loop lemmas -/

theorem hydraLoopF_fuel (f g : Nat) (s : SoundFontHydra) (sn : HydraSeen)
    (bs : List Nat) (hf : bs.length < f) (hg : bs.length < g) :
    hydraLoopF f s sn bs = hydraLoopF g s sn bs := by
  induction f generalizing g s sn bs with
  | zero => omega
  | succ f ih =>
    cases g with
    | zero => omega
    | succ g =>
      simp only [hydraLoopF]
      cases hp : parseChunk bs with
      | error e => cases e <;> rfl
      | ok p =>
        obtain ⟨ck, rest⟩ := p
        have hlt := parseChunk_ok_lt bs ck rest hp
        dsimp only
        by_cases hm : ck.id ∈ hydraTagList
        · simp only [if_pos hm]
          cases processHydraChunk s ck with
          | error e => rfl
          | ok s' => exact ih g s' _ rest (by omega) (by omega)
        · simp only [if_neg hm]
          exact ih g s sn rest (by omega) (by omega)

theorem hydraRun_nil (s : SoundFontHydra) (sn : HydraSeen) :
    hydraRun s sn [] = hydraFinish s sn := rfl

theorem hydraRun_eof (s : SoundFontHydra) (sn : HydraSeen) (bs : List Nat)
    (hp : parseChunk bs = .error .eof) : hydraRun s sn bs = hydraFinish s sn := by
  unfold hydraRun
  simp only [hydraLoopF, hp]

theorem hydraRun_parseErr (s : SoundFontHydra) (sn : HydraSeen) (bs : List Nat)
    (e : Err) (hp : parseChunk bs = .error e) (he : e ≠ .eof) :
    hydraRun s sn bs = .error e := by
  unfold hydraRun
  simp only [hydraLoopF, hp]

theorem hydraRun_skip (s : SoundFontHydra) (sn : HydraSeen) (bs : List Nat)
    (ck : Chunk) (rest : List Nat) (hp : parseChunk bs = .ok (ck, rest))
    (hm : ck.id ∉ hydraTagList) : hydraRun s sn bs = hydraRun s sn rest := by
  unfold hydraRun
  simp only [hydraLoopF, hp]
  rw [if_neg hm]
  exact hydraLoopF_fuel bs.length (rest.length + 1) s sn rest
    (by have := parseChunk_ok_lt bs ck rest hp; omega) (by omega)

theorem hydraRun_proc (s s' : SoundFontHydra) (sn : HydraSeen) (bs : List Nat)
    (ck : Chunk) (rest : List Nat) (hp : parseChunk bs = .ok (ck, rest))
    (hm : ck.id ∈ hydraTagList) (hq : processHydraChunk s ck = .ok s') :
    hydraRun s sn bs = hydraRun s' (markHydraSeen sn ck.id) rest := by
  unfold hydraRun
  simp only [hydraLoopF, hp]
  rw [if_pos hm, hq]
  exact hydraLoopF_fuel bs.length (rest.length + 1) s' (markHydraSeen sn ck.id) rest
    (by have := parseChunk_ok_lt bs ck rest hp; omega) (by omega)

theorem hydraRun_procErr (s : SoundFontHydra) (sn : HydraSeen) (bs : List Nat)
    (ck : Chunk) (rest : List Nat) (e : Err)
    (hp : parseChunk bs = .ok (ck, rest)) (hm : ck.id ∈ hydraTagList)
    (hq : processHydraChunk s ck = .error e) : hydraRun s sn bs = .error e := by
  unfold hydraRun
  simp only [hydraLoopF, hp]
  rw [if_pos hm, hq]

theorem processHydraChunk_wf (s : SoundFontHydra) (t : Tag) (d : List Nat)
    (hm : t ∈ hydraTagList) (hsz : d.length % hydraWidth t = 0) :
    processHydraChunk s ⟨t, d.length, d⟩ = .ok (applyHydraChunk s (t, d)) := by
  simp only [hydraTagList, List.mem_cons, List.not_mem_nil, or_false] at hm
  rcases hm with rfl | rfl | rfl | rfl | rfl | rfl | rfl | rfl | rfl <;>
    simp_all [processHydraChunk, applyHydraChunk, hydraWidth, phdrTag, pbagTag,
      pmodTag, pgenTag, instTag, ibagTag, imodTag, igenTag, shdrTag]

theorem applyHydraChunk_unrec (s : SoundFontHydra) (t : Tag) (d : List Nat)
    (hm : t ∉ hydraTagList) : applyHydraChunk s (t, d) = s := by
  simp only [hydraTagList, List.mem_cons, List.not_mem_nil, or_false, not_or] at hm
  obtain ⟨h1, h2, h3, h4, h5, h6, h7, h8, h9⟩ := hm
  simp [applyHydraChunk, processHydraChunk, h1, h2, h3, h4, h5, h6, h7, h8, h9]

theorem applyHydraChunk_phdr (s : SoundFontHydra) (d : List Nat) :
    applyHydraChunk s (phdrTag, d) =
      if d.length % 38 = 0 then
        { s with Headers := decodeRecords decodePresetHeader (d.length / 38) d }
      else s := by
  by_cases hsz : d.length % 38 = 0 <;>
    simp [applyHydraChunk, processHydraChunk, hsz]

theorem applyHydraChunk_pbag (s : SoundFontHydra) (d : List Nat) :
    applyHydraChunk s (pbagTag, d) =
      if d.length % 4 = 0 then
        { s with PBag := decodeRecords decodePBagRec (d.length / 4) d }
      else s := by
  by_cases hsz : d.length % 4 = 0 <;>
    simp [applyHydraChunk, processHydraChunk, hsz, pbagTag, phdrTag]

theorem applyHydraChunk_pmod (s : SoundFontHydra) (d : List Nat) :
    applyHydraChunk s (pmodTag, d) =
      if d.length % 10 = 0 then
        { s with PresetModulators := decodeRecords decodeModulator (d.length / 10) d }
      else s := by
  by_cases hsz : d.length % 10 = 0 <;>
    simp [applyHydraChunk, processHydraChunk, hsz, pmodTag, phdrTag, pbagTag]

theorem applyHydraChunk_pgen (s : SoundFontHydra) (d : List Nat) :
    applyHydraChunk s (pgenTag, d) =
      if d.length % 4 = 0 then
        { s with PresetGenerators := decodeRecords decodeGenerator (d.length / 4) d }
      else s := by
  by_cases hsz : d.length % 4 = 0 <;>
    simp [applyHydraChunk, processHydraChunk, hsz, pgenTag, phdrTag, pbagTag,
      pmodTag]

theorem applyHydraChunk_inst (s : SoundFontHydra) (d : List Nat) :
    applyHydraChunk s (instTag, d) =
      if d.length % 22 = 0 then
        { s with Instuments := decodeRecords decodeInstrument (d.length / 22) d }
      else s := by
  by_cases hsz : d.length % 22 = 0 <;>
    simp [applyHydraChunk, processHydraChunk, hsz, instTag, phdrTag, pbagTag,
      pmodTag, pgenTag]

theorem applyHydraChunk_ibag (s : SoundFontHydra) (d : List Nat) :
    applyHydraChunk s (ibagTag, d) =
      if d.length % 4 = 0 then
        { s with IBag := decodeRecords decodeIBagRec (d.length / 4) d }
      else s := by
  by_cases hsz : d.length % 4 = 0 <;>
    simp [applyHydraChunk, processHydraChunk, hsz, ibagTag, phdrTag, pbagTag,
      pmodTag, pgenTag, instTag]

theorem applyHydraChunk_imod (s : SoundFontHydra) (d : List Nat) :
    applyHydraChunk s (imodTag, d) =
      if d.length % 10 = 0 then
        { s with InstrumentModulators := decodeRecords decodeModulator (d.length / 10) d }
      else s := by
  by_cases hsz : d.length % 10 = 0 <;>
    simp [applyHydraChunk, processHydraChunk, hsz, imodTag, phdrTag, pbagTag,
      pmodTag, pgenTag, instTag, ibagTag]

theorem applyHydraChunk_igen (s : SoundFontHydra) (d : List Nat) :
    applyHydraChunk s (igenTag, d) =
      if d.length % 4 = 0 then
        { s with InstrumentGenerators := decodeRecords decodeGenerator (d.length / 4) d }
      else s := by
  by_cases hsz : d.length % 4 = 0 <;>
    simp [applyHydraChunk, processHydraChunk, hsz, igenTag, phdrTag, pbagTag,
      pmodTag, pgenTag, instTag, ibagTag, imodTag]

theorem applyHydraChunk_shdr (s : SoundFontHydra) (d : List Nat) :
    applyHydraChunk s (shdrTag, d) =
      if d.length % 46 = 0 then
        { s with Samples := decodeRecords decodeSampleHeader (d.length / 46) d }
      else s := by
  by_cases hsz : d.length % 46 = 0 <;>
    simp [applyHydraChunk, processHydraChunk, hsz, shdrTag, phdrTag, pbagTag,
      pmodTag, pgenTag, instTag, ibagTag, imodTag, igenTag]

theorem hydraRun_chunks (cks : List (Tag × List Nat)) (suffix : List Nat)
    (s : SoundFontHydra) (sn : HydraSeen) (hwf : hydraWF cks) :
    hydraRun s sn (chunksBytes cks ++ suffix) =
      hydraRun (cks.foldl applyHydraChunk s) (hydraSeenFold sn cks) suffix := by
  induction cks generalizing s sn with
  | nil => simp [chunksBytes, hydraSeenFold]
  | cons p cks ih =>
    obtain ⟨t, d⟩ := p
    have hd32 : d.length < 4294967296 := (hwf (t, d) (List.mem_cons_self _ _)).1
    have e : chunksBytes ((t, d) :: cks) ++ suffix
        = mkChunkBytes t d ++ (chunksBytes cks ++ suffix) := by
      simp [chunksBytes]
    rw [e]
    have hp := parseChunk_mk t d (chunksBytes cks ++ suffix) hd32
    have hwf' : hydraWF cks := fun q hq => hwf q (List.mem_cons_of_mem _ hq)
    by_cases hm : t ∈ hydraTagList
    · have hsz := (hwf (t, d) (List.mem_cons_self _ _)).2 hm
      rw [hydraRun_proc s (applyHydraChunk s (t, d)) sn _ ⟨t, d.length, d⟩ _ hp hm
        (processHydraChunk_wf s t d hm hsz)]
      show hydraRun (applyHydraChunk s (t, d)) (markHydraSeen sn t)
        (chunksBytes cks ++ suffix) = _
      rw [ih (applyHydraChunk s (t, d)) (markHydraSeen sn t) hwf']
      simp only [List.foldl_cons, hydraSeenFold, hydraSeenStep, if_pos hm]
    · rw [hydraRun_skip s sn _ ⟨t, d.length, d⟩ _ hp hm]
      rw [ih s sn hwf']
      simp only [List.foldl_cons, hydraSeenFold, hydraSeenStep, if_neg hm,
        applyHydraChunk_unrec s t d hm]

theorem hydraSeenStep_fields (sn : HydraSeen) (p : Tag × List Nat) :
    (hydraSeenStep sn p).phdr = (sn.phdr || decide (p.1 = phdrTag)) ∧
    (hydraSeenStep sn p).pbag = (sn.pbag || decide (p.1 = pbagTag)) ∧
    (hydraSeenStep sn p).pmod = (sn.pmod || decide (p.1 = pmodTag)) ∧
    (hydraSeenStep sn p).pgen = (sn.pgen || decide (p.1 = pgenTag)) ∧
    (hydraSeenStep sn p).inst = (sn.inst || decide (p.1 = instTag)) ∧
    (hydraSeenStep sn p).ibag = (sn.ibag || decide (p.1 = ibagTag)) ∧
    (hydraSeenStep sn p).imod = (sn.imod || decide (p.1 = imodTag)) ∧
    (hydraSeenStep sn p).igen = (sn.igen || decide (p.1 = igenTag)) ∧
    (hydraSeenStep sn p).shdr = (sn.shdr || decide (p.1 = shdrTag)) := by
  by_cases hm : p.1 ∈ hydraTagList
  · rw [hydraSeenStep, if_pos hm]
    simp only [hydraTagList, List.mem_cons, List.not_mem_nil, or_false] at hm
    rcases hm with h | h | h | h | h | h | h | h | h <;> rw [h] <;>
      simp [markHydraSeen, phdrTag, pbagTag, pmodTag, pgenTag, instTag,
        ibagTag, imodTag, igenTag, shdrTag]
  · rw [hydraSeenStep, if_neg hm]
    simp only [hydraTagList, List.mem_cons, List.not_mem_nil, or_false,
      not_or] at hm
    obtain ⟨h1, h2, h3, h4, h5, h6, h7, h8, h9⟩ := hm
    simp [h1, h2, h3, h4, h5, h6, h7, h8, h9]

theorem decodeRecords_length {α : Type} (dec : List Nat → α × List Nat)
    (k : Nat) (d : List Nat) : (decodeRecords dec k d).length = k := by
  induction k generalizing d with
  | zero => rfl
  | succ k ih => simp [decodeRecords, ih]

theorem applyHydraChunk_fields_ne (s : SoundFontHydra) (p : Tag × List Nat) :
    (p.1 ≠ phdrTag → (applyHydraChunk s p).Headers = s.Headers) ∧
    (p.1 ≠ pbagTag → (applyHydraChunk s p).PBag = s.PBag) ∧
    (p.1 ≠ pmodTag → (applyHydraChunk s p).PresetModulators = s.PresetModulators) ∧
    (p.1 ≠ pgenTag → (applyHydraChunk s p).PresetGenerators = s.PresetGenerators) ∧
    (p.1 ≠ instTag → (applyHydraChunk s p).Instuments = s.Instuments) ∧
    (p.1 ≠ ibagTag → (applyHydraChunk s p).IBag = s.IBag) ∧
    (p.1 ≠ imodTag → (applyHydraChunk s p).InstrumentModulators = s.InstrumentModulators) ∧
    (p.1 ≠ igenTag → (applyHydraChunk s p).InstrumentGenerators = s.InstrumentGenerators) ∧
    (p.1 ≠ shdrTag → (applyHydraChunk s p).Samples = s.Samples) := by
  obtain ⟨t, d⟩ := p
  by_cases hm : t ∈ hydraTagList
  · simp only [hydraTagList, List.mem_cons, List.not_mem_nil, or_false] at hm
    rcases hm with rfl | rfl | rfl | rfl | rfl | rfl | rfl | rfl | rfl
    · rw [applyHydraChunk_phdr]; split_ifs <;> simp
    · rw [applyHydraChunk_pbag]; split_ifs <;> simp
    · rw [applyHydraChunk_pmod]; split_ifs <;> simp
    · rw [applyHydraChunk_pgen]; split_ifs <;> simp
    · rw [applyHydraChunk_inst]; split_ifs <;> simp
    · rw [applyHydraChunk_ibag]; split_ifs <;> simp
    · rw [applyHydraChunk_imod]; split_ifs <;> simp
    · rw [applyHydraChunk_igen]; split_ifs <;> simp
    · rw [applyHydraChunk_shdr]; split_ifs <;> simp
  · rw [applyHydraChunk_unrec s t d hm]
    simp

theorem applyHydraChunk_self (s : SoundFontHydra) (d : List Nat) :
    (d.length % 38 = 0 → (applyHydraChunk s (phdrTag, d)).Headers =
      decodeRecords decodePresetHeader (d.length / 38) d) ∧
    (d.length % 4 = 0 → (applyHydraChunk s (pbagTag, d)).PBag =
      decodeRecords decodePBagRec (d.length / 4) d) ∧
    (d.length % 10 = 0 → (applyHydraChunk s (pmodTag, d)).PresetModulators =
      decodeRecords decodeModulator (d.length / 10) d) ∧
    (d.length % 4 = 0 → (applyHydraChunk s (pgenTag, d)).PresetGenerators =
      decodeRecords decodeGenerator (d.length / 4) d) ∧
    (d.length % 22 = 0 → (applyHydraChunk s (instTag, d)).Instuments =
      decodeRecords decodeInstrument (d.length / 22) d) ∧
    (d.length % 4 = 0 → (applyHydraChunk s (ibagTag, d)).IBag =
      decodeRecords decodeIBagRec (d.length / 4) d) ∧
    (d.length % 10 = 0 → (applyHydraChunk s (imodTag, d)).InstrumentModulators =
      decodeRecords decodeModulator (d.length / 10) d) ∧
    (d.length % 4 = 0 → (applyHydraChunk s (igenTag, d)).InstrumentGenerators =
      decodeRecords decodeGenerator (d.length / 4) d) ∧
    (d.length % 46 = 0 → (applyHydraChunk s (shdrTag, d)).Samples =
      decodeRecords decodeSampleHeader (d.length / 46) d) := by
  refine ⟨fun hsz => ?_, fun hsz => ?_, fun hsz => ?_, fun hsz => ?_,
    fun hsz => ?_, fun hsz => ?_, fun hsz => ?_, fun hsz => ?_, fun hsz => ?_⟩
  · rw [applyHydraChunk_phdr, if_pos hsz]
  · rw [applyHydraChunk_pbag, if_pos hsz]
  · rw [applyHydraChunk_pmod, if_pos hsz]
  · rw [applyHydraChunk_pgen, if_pos hsz]
  · rw [applyHydraChunk_inst, if_pos hsz]
  · rw [applyHydraChunk_ibag, if_pos hsz]
  · rw [applyHydraChunk_imod, if_pos hsz]
  · rw [applyHydraChunk_igen, if_pos hsz]
  · rw [applyHydraChunk_shdr, if_pos hsz]

theorem hydraFold_fields_ne (cks : List (Tag × List Nat)) (s : SoundFontHydra) :
    (phdrTag ∉ cks.map Prod.fst → (cks.foldl applyHydraChunk s).Headers = s.Headers) ∧
    (pbagTag ∉ cks.map Prod.fst → (cks.foldl applyHydraChunk s).PBag = s.PBag) ∧
    (pmodTag ∉ cks.map Prod.fst →
      (cks.foldl applyHydraChunk s).PresetModulators = s.PresetModulators) ∧
    (pgenTag ∉ cks.map Prod.fst →
      (cks.foldl applyHydraChunk s).PresetGenerators = s.PresetGenerators) ∧
    (instTag ∉ cks.map Prod.fst → (cks.foldl applyHydraChunk s).Instuments = s.Instuments) ∧
    (ibagTag ∉ cks.map Prod.fst → (cks.foldl applyHydraChunk s).IBag = s.IBag) ∧
    (imodTag ∉ cks.map Prod.fst →
      (cks.foldl applyHydraChunk s).InstrumentModulators = s.InstrumentModulators) ∧
    (igenTag ∉ cks.map Prod.fst →
      (cks.foldl applyHydraChunk s).InstrumentGenerators = s.InstrumentGenerators) ∧
    (shdrTag ∉ cks.map Prod.fst → (cks.foldl applyHydraChunk s).Samples = s.Samples) := by
  induction cks generalizing s with
  | nil => simp
  | cons p cks ih =>
    have hs := applyHydraChunk_fields_ne s p
    have ihs := ih (applyHydraChunk s p)
    simp only [List.foldl_cons, List.map_cons, List.mem_cons, not_or] at ihs ⊢
    obtain ⟨s1, s2, s3, s4, s5, s6, s7, s8, s9⟩ := hs
    obtain ⟨i1, i2, i3, i4, i5, i6, i7, i8, i9⟩ := ihs
    exact ⟨fun h => (i1 h.2).trans (s1 (fun e => h.1 e.symm)),
      fun h => (i2 h.2).trans (s2 (fun e => h.1 e.symm)),
      fun h => (i3 h.2).trans (s3 (fun e => h.1 e.symm)),
      fun h => (i4 h.2).trans (s4 (fun e => h.1 e.symm)),
      fun h => (i5 h.2).trans (s5 (fun e => h.1 e.symm)),
      fun h => (i6 h.2).trans (s6 (fun e => h.1 e.symm)),
      fun h => (i7 h.2).trans (s7 (fun e => h.1 e.symm)),
      fun h => (i8 h.2).trans (s8 (fun e => h.1 e.symm)),
      fun h => (i9 h.2).trans (s9 (fun e => h.1 e.symm))⟩

theorem hydraSeenFold_fields (cks : List (Tag × List Nat)) (sn : HydraSeen) :
    (hydraSeenFold sn cks).phdr = (sn.phdr || cks.any (fun p => p.1 = phdrTag)) ∧
    (hydraSeenFold sn cks).pbag = (sn.pbag || cks.any (fun p => p.1 = pbagTag)) ∧
    (hydraSeenFold sn cks).pmod = (sn.pmod || cks.any (fun p => p.1 = pmodTag)) ∧
    (hydraSeenFold sn cks).pgen = (sn.pgen || cks.any (fun p => p.1 = pgenTag)) ∧
    (hydraSeenFold sn cks).inst = (sn.inst || cks.any (fun p => p.1 = instTag)) ∧
    (hydraSeenFold sn cks).ibag = (sn.ibag || cks.any (fun p => p.1 = ibagTag)) ∧
    (hydraSeenFold sn cks).imod = (sn.imod || cks.any (fun p => p.1 = imodTag)) ∧
    (hydraSeenFold sn cks).igen = (sn.igen || cks.any (fun p => p.1 = igenTag)) ∧
    (hydraSeenFold sn cks).shdr = (sn.shdr || cks.any (fun p => p.1 = shdrTag)) := by
  induction cks generalizing sn with
  | nil => simp [hydraSeenFold]
  | cons p cks ih =>
    have hs := hydraSeenStep_fields sn p
    have ihs := ih (hydraSeenStep sn p)
    simp only [hydraSeenFold, List.foldl_cons] at ihs ⊢
    simp only [List.any_cons]
    obtain ⟨s1, s2, s3, s4, s5, s6, s7, s8, s9⟩ := hs
    obtain ⟨i1, i2, i3, i4, i5, i6, i7, i8, i9⟩ := ihs
    exact ⟨by rw [i1, s1, Bool.or_assoc], by rw [i2, s2, Bool.or_assoc],
      by rw [i3, s3, Bool.or_assoc], by rw [i4, s4, Bool.or_assoc],
      by rw [i5, s5, Bool.or_assoc], by rw [i6, s6, Bool.or_assoc],
      by rw [i7, s7, Bool.or_assoc], by rw [i8, s8, Bool.or_assoc],
      by rw [i9, s9, Bool.or_assoc]⟩

/-! ## Info loop lemmas -/

theorem infoLoopF_fuel (f g : Nat) (s : SoundFontInfo) (sn : InfoSeen)
    (bs : List Nat) (hf : bs.length < f) (hg : bs.length < g) :
    infoLoopF f s sn bs = infoLoopF g s sn bs := by
  induction f generalizing g s sn bs with
  | zero => omega
  | succ f ih =>
    cases g with
    | zero => omega
    | succ g =>
      simp only [infoLoopF]
      cases hp : parseChunk bs with
      | error e => cases e <;> rfl
      | ok p =>
        obtain ⟨ck, rest⟩ := p
        have hlt := parseChunk_ok_lt bs ck rest hp
        dsimp only
        by_cases hm : ck.id ∈ infoTagList
        · simp only [if_pos hm]
          by_cases hsn : infoSeenGet sn ck.id
          · simp only [if_pos hsn]
          · simp only [if_neg hsn]
            cases processInfoChunk s ck with
            | error e => rfl
            | ok s' => exact ih g s' _ rest (by omega) (by omega)
        · simp only [if_neg hm]
          exact ih g s sn rest (by omega) (by omega)

theorem infoRun_nil (s : SoundFontInfo) (sn : InfoSeen) :
    infoRun s sn [] = infoFinish s sn := rfl

theorem infoRun_eof (s : SoundFontInfo) (sn : InfoSeen) (bs : List Nat)
    (hp : parseChunk bs = .error .eof) : infoRun s sn bs = infoFinish s sn := by
  unfold infoRun
  simp only [infoLoopF, hp]

theorem infoRun_skip (s : SoundFontInfo) (sn : InfoSeen) (bs : List Nat)
    (ck : Chunk) (rest : List Nat) (hp : parseChunk bs = .ok (ck, rest))
    (hm : ck.id ∉ infoTagList) : infoRun s sn bs = infoRun s sn rest := by
  unfold infoRun
  simp only [infoLoopF, hp]
  rw [if_neg hm]
  exact infoLoopF_fuel bs.length (rest.length + 1) s sn rest
    (by have := parseChunk_ok_lt bs ck rest hp; omega) (by omega)

theorem infoRun_proc (s s' : SoundFontInfo) (sn : InfoSeen) (bs : List Nat)
    (ck : Chunk) (rest : List Nat) (hp : parseChunk bs = .ok (ck, rest))
    (hm : ck.id ∈ infoTagList) (hsn : infoSeenGet sn ck.id = false)
    (hq : processInfoChunk s ck = .ok s') :
    infoRun s sn bs = infoRun s' (markInfoSeen sn ck.id) rest := by
  unfold infoRun
  simp only [infoLoopF, hp]
  rw [if_pos hm, if_neg (by simp [hsn]), hq]
  exact infoLoopF_fuel bs.length (rest.length + 1) s' (markInfoSeen sn ck.id)
    rest (by have := parseChunk_ok_lt bs ck rest hp; omega) (by omega)

theorem processInfoChunk_wf (s : SoundFontInfo) (t : Tag) (d : List Nat)
    (hm : t ∈ infoTagList) (hsz : infoSizeOK t d.length) :
    processInfoChunk s ⟨t, d.length, d⟩ = .ok (applyInfoChunk s (t, d)) := by
  simp only [infoTagList, List.mem_cons, List.not_mem_nil, or_false] at hm
  rcases hm with rfl | rfl | rfl | rfl | rfl | rfl | rfl | rfl | rfl | rfl | rfl
  · have h4 : d.length = 4 := by simpa [infoSizeOK] using hsz
    simp [processInfoChunk, applyInfoChunk, h4]
  · have hle : d.length ≤ 256 := by
      simpa [infoSizeOK, isngTag, ifilTag, iverTag, icmtTag] using hsz
    simp [processInfoChunk, applyInfoChunk, isngTag, ifilTag,
      show ¬(256 < d.length) from by omega]
  · have hle : d.length ≤ 256 := by
      simpa [infoSizeOK, inamTag, ifilTag, iverTag, icmtTag] using hsz
    simp [processInfoChunk, applyInfoChunk, inamTag, ifilTag, isngTag,
      show ¬(256 < d.length) from by omega]
  · have hle : d.length ≤ 256 := by
      simpa [infoSizeOK, iromTag, ifilTag, iverTag, icmtTag] using hsz
    simp [processInfoChunk, applyInfoChunk, iromTag, ifilTag, isngTag, inamTag,
      show ¬(256 < d.length) from by omega]
  · have h4 : d.length = 4 := by simpa [infoSizeOK, iverTag, ifilTag] using hsz
    simp [processInfoChunk, applyInfoChunk, iverTag, ifilTag, isngTag, inamTag,
      iromTag, h4]
  · have hle : d.length ≤ 256 := by
      simpa [infoSizeOK, icrdTag, ifilTag, iverTag, icmtTag] using hsz
    simp [processInfoChunk, applyInfoChunk, icrdTag, ifilTag, isngTag, inamTag,
      iromTag, iverTag, show ¬(256 < d.length) from by omega]
  · have hle : d.length ≤ 256 := by
      simpa [infoSizeOK, iengTag, ifilTag, iverTag, icmtTag] using hsz
    simp [processInfoChunk, applyInfoChunk, iengTag, ifilTag, isngTag, inamTag,
      iromTag, iverTag, icrdTag, show ¬(256 < d.length) from by omega]
  · have hle : d.length ≤ 256 := by
      simpa [infoSizeOK, iprdTag, ifilTag, iverTag, icmtTag] using hsz
    simp [processInfoChunk, applyInfoChunk, iprdTag, ifilTag, isngTag, inamTag,
      iromTag, iverTag, icrdTag, iengTag, show ¬(256 < d.length) from by omega]
  · have hle : d.length ≤ 256 := by
      simpa [infoSizeOK, icopTag, ifilTag, iverTag, icmtTag] using hsz
    simp [processInfoChunk, applyInfoChunk, icopTag, ifilTag, isngTag, inamTag,
      iromTag, iverTag, icrdTag, iengTag, iprdTag,
      show ¬(256 < d.length) from by omega]
  · have hle : d.length ≤ 65536 := by
      simpa [infoSizeOK, icmtTag, ifilTag, iverTag] using hsz
    simp [processInfoChunk, applyInfoChunk, icmtTag, ifilTag, isngTag, inamTag,
      iromTag, iverTag, icrdTag, iengTag, iprdTag, icopTag,
      show ¬(65536 < d.length) from by omega]
  · have hle : d.length ≤ 256 := by
      simpa [infoSizeOK, isftTag, ifilTag, iverTag, icmtTag] using hsz
    simp [processInfoChunk, applyInfoChunk, isftTag, ifilTag, isngTag, inamTag,
      iromTag, iverTag, icrdTag, iengTag, iprdTag, icopTag, icmtTag,
      show ¬(256 < d.length) from by omega]

theorem applyInfoChunk_unrec (s : SoundFontInfo) (t : Tag) (d : List Nat)
    (hm : t ∉ infoTagList) : applyInfoChunk s (t, d) = s := by
  simp only [infoTagList, List.mem_cons, List.not_mem_nil, or_false,
    not_or] at hm
  obtain ⟨h1, h2, h3, h4, h5, h6, h7, h8, h9, h10, h11⟩ := hm
  simp [applyInfoChunk, processInfoChunk, h1, h2, h3, h4, h5, h6, h7, h8, h9,
    h10, h11]

theorem infoSeenStep_fields (sn : InfoSeen) (p : Tag × List Nat) :
    (infoSeenStep sn p).ifil = (sn.ifil || decide (p.1 = ifilTag)) ∧
    (infoSeenStep sn p).isng = (sn.isng || decide (p.1 = isngTag)) ∧
    (infoSeenStep sn p).inam = (sn.inam || decide (p.1 = inamTag)) ∧
    (infoSeenStep sn p).irom = (sn.irom || decide (p.1 = iromTag)) ∧
    (infoSeenStep sn p).iver = (sn.iver || decide (p.1 = iverTag)) ∧
    (infoSeenStep sn p).icrd = (sn.icrd || decide (p.1 = icrdTag)) ∧
    (infoSeenStep sn p).ieng = (sn.ieng || decide (p.1 = iengTag)) ∧
    (infoSeenStep sn p).iprd = (sn.iprd || decide (p.1 = iprdTag)) ∧
    (infoSeenStep sn p).icop = (sn.icop || decide (p.1 = icopTag)) ∧
    (infoSeenStep sn p).icmt = (sn.icmt || decide (p.1 = icmtTag)) ∧
    (infoSeenStep sn p).isft = (sn.isft || decide (p.1 = isftTag)) := by
  by_cases hm : p.1 ∈ infoTagList
  · rw [infoSeenStep, if_pos hm]
    simp only [infoTagList, List.mem_cons, List.not_mem_nil, or_false] at hm
    rcases hm with h | h | h | h | h | h | h | h | h | h | h <;> rw [h] <;>
      simp [markInfoSeen, ifilTag, isngTag, inamTag, iromTag, iverTag, icrdTag,
        iengTag, iprdTag, icopTag, icmtTag, isftTag]
  · rw [infoSeenStep, if_neg hm]
    simp only [infoTagList, List.mem_cons, List.not_mem_nil, or_false,
      not_or] at hm
    obtain ⟨h1, h2, h3, h4, h5, h6, h7, h8, h9, h10, h11⟩ := hm
    simp [h1, h2, h3, h4, h5, h6, h7, h8, h9, h10, h11]

theorem infoSeenGet_step (sn : InfoSeen) (p : Tag × List Nat) (t' : Tag)
    (hm : t' ∈ infoTagList) :
    infoSeenGet (infoSeenStep sn p) t' = (infoSeenGet sn t' || decide (p.1 = t')) := by
  obtain ⟨f1, f2, f3, f4, f5, f6, f7, f8, f9, f10, f11⟩ := infoSeenStep_fields sn p
  simp only [infoTagList, List.mem_cons, List.not_mem_nil, or_false] at hm
  rcases hm with rfl | rfl | rfl | rfl | rfl | rfl | rfl | rfl | rfl | rfl | rfl
  · exact f1
  · exact f2
  · exact f3
  · exact f4
  · exact f5
  · exact f6
  · exact f7
  · exact f8
  · exact f9
  · exact f10
  · exact f11

theorem infoSeenFold_ifil_isng (cks : List (Tag × List Nat)) (sn : InfoSeen) :
    (infoSeenFold sn cks).ifil = (sn.ifil || cks.any (fun p => p.1 = ifilTag)) ∧
    (infoSeenFold sn cks).isng = (sn.isng || cks.any (fun p => p.1 = isngTag)) := by
  induction cks generalizing sn with
  | nil => simp [infoSeenFold]
  | cons p cks ih =>
    obtain ⟨s1, s2, -⟩ := infoSeenStep_fields sn p
    obtain ⟨i1, i2⟩ := ih (infoSeenStep sn p)
    simp only [infoSeenFold, List.foldl_cons] at i1 i2 ⊢
    simp only [List.any_cons]
    exact ⟨by rw [i1, s1, Bool.or_assoc], by rw [i2, s2, Bool.or_assoc]⟩

theorem infoRun_chunks (cks : List (Tag × List Nat)) (suffix : List Nat)
    (s : SoundFontInfo) (sn : InfoSeen)
    (hwf : ∀ p ∈ cks, p.2.length < 4294967296 ∧
      (p.1 ∈ infoTagList → infoSizeOK p.1 p.2.length))
    (hdup : List.Pairwise (fun p q : Tag × List Nat =>
      p.1 ∈ infoTagList → p.1 ≠ q.1) cks)
    (hseen : ∀ p ∈ cks, p.1 ∈ infoTagList → infoSeenGet sn p.1 = false) :
    infoRun s sn (chunksBytes cks ++ suffix) =
      infoRun (cks.foldl applyInfoChunk s) (infoSeenFold sn cks) suffix := by
  induction cks generalizing s sn with
  | nil => simp [chunksBytes, infoSeenFold]
  | cons p cks ih =>
    obtain ⟨t, d⟩ := p
    have hd32 : d.length < 4294967296 := (hwf (t, d) (List.mem_cons_self _ _)).1
    have e : chunksBytes ((t, d) :: cks) ++ suffix
        = mkChunkBytes t d ++ (chunksBytes cks ++ suffix) := by simp [chunksBytes]
    rw [e]
    have hp := parseChunk_mk t d (chunksBytes cks ++ suffix) hd32
    have hwf' := fun q hq => hwf q (List.mem_cons_of_mem _ hq)
    have hdhd := (List.pairwise_cons.mp hdup).1
    have hdup' := (List.pairwise_cons.mp hdup).2
    by_cases hm : t ∈ infoTagList
    · have hsz := (hwf (t, d) (List.mem_cons_self _ _)).2 hm
      have hsn : infoSeenGet sn t = false := hseen (t, d) (List.mem_cons_self _ _) hm
      have hseen' : ∀ q ∈ cks, q.1 ∈ infoTagList →
          infoSeenGet (markInfoSeen sn t) q.1 = false := by
        intro q hq hqm
        have hstep : markInfoSeen sn t = infoSeenStep sn (t, d) := by
          simp [infoSeenStep, if_pos hm]
        have hne : t ≠ q.1 := hdhd q hq hm
        rw [hstep, infoSeenGet_step sn (t, d) q.1 hqm]
        simp [hseen q (List.mem_cons_of_mem _ hq) hqm, hne]
      rw [infoRun_proc s (applyInfoChunk s (t, d)) sn _ ⟨t, d.length, d⟩ _ hp hm hsn
        (processInfoChunk_wf s t d hm hsz)]
      show infoRun (applyInfoChunk s (t, d)) (markInfoSeen sn t)
        (chunksBytes cks ++ suffix) = _
      rw [ih (applyInfoChunk s (t, d)) (markInfoSeen sn t) hwf' hdup' hseen']
      simp only [List.foldl_cons, infoSeenFold, infoSeenStep, if_pos hm]
    · rw [infoRun_skip s sn _ ⟨t, d.length, d⟩ _ hp hm, ih s sn hwf' hdup'
        (fun q hq hqm => hseen q (List.mem_cons_of_mem _ hq) hqm)]
      simp only [List.foldl_cons, infoSeenFold, infoSeenStep, if_neg hm,
        applyInfoChunk_unrec s t d hm]

theorem ReadSoundFontInfo_INFO (bs : List Nat) :
    ReadSoundFontInfo (INFOBytes ++ bs) = infoRun infoInit infoSeenNone bs := by
  simp [ReadSoundFontInfo,
    readFull_exact 4 INFOBytes bs (by simp [INFOBytes])]

/-! ## Record round-trip lemmas -/

theorem getD_lt_of_AllBytes (u : List Nat) (hb : AllBytes u) (o : Nat)
    (h : o < u.length) : u.getD o 0 < 256 := by
  rw [List.getD_eq_getElem u 0 h]
  exact hb _ (List.getElem_mem h)

theorem step16 (o m : Nat) (u : List Nat) (ho : o + 2 = m) (hb : AllBytes u)
    (hl : o + 2 ≤ u.length) : enc16 (le16at u o) ++ u.drop m = u.drop o := by
  subst ho
  have h0 : o < u.length := by omega
  have h1 : o + 1 < u.length := by omega
  have b0 := getD_lt_of_AllBytes u hb o h0
  have b1 := getD_lt_of_AllBytes u hb (o + 1) h1
  rw [List.drop_eq_getElem_cons h0, List.drop_eq_getElem_cons h1]
  simp only [enc16, le16at, List.getD_eq_getElem u 0 h0,
    List.getD_eq_getElem u 0 h1, List.cons_append, List.nil_append,
    List.cons.injEq]
  rw [List.getD_eq_getElem u 0 h0] at b0
  rw [List.getD_eq_getElem u 0 h1] at b1
  exact ⟨by omega, by omega, trivial⟩

theorem step32 (o m : Nat) (u : List Nat) (ho : o + 4 = m) (hb : AllBytes u)
    (hl : o + 4 ≤ u.length) : enc32 (le32at u o) ++ u.drop m = u.drop o := by
  subst ho
  have h0 : o < u.length := by omega
  have h1 : o + 1 < u.length := by omega
  have h2 : o + 2 < u.length := by omega
  have h3 : o + 3 < u.length := by omega
  have b0 := getD_lt_of_AllBytes u hb o h0
  have b1 := getD_lt_of_AllBytes u hb (o + 1) h1
  have b2 := getD_lt_of_AllBytes u hb (o + 2) h2
  have b3 := getD_lt_of_AllBytes u hb (o + 3) h3
  rw [List.drop_eq_getElem_cons h0, List.drop_eq_getElem_cons h1,
    List.drop_eq_getElem_cons h2, List.drop_eq_getElem_cons h3]
  simp only [enc32, le32at, List.getD_eq_getElem u 0 h0,
    List.getD_eq_getElem u 0 h1, List.getD_eq_getElem u 0 h2,
    List.getD_eq_getElem u 0 h3, List.cons_append, List.nil_append,
    List.cons.injEq]
  rw [List.getD_eq_getElem u 0 h0] at b0
  rw [List.getD_eq_getElem u 0 h1] at b1
  rw [List.getD_eq_getElem u 0 h2] at b2
  rw [List.getD_eq_getElem u 0 h3] at b3
  exact ⟨by omega, by omega, by omega, by omega, trivial⟩

theorem step8 (o m : Nat) (u : List Nat) (ho : o + 1 = m) (hb : AllBytes u)
    (hl : o + 1 ≤ u.length) : [u.getD o 0 % 256] ++ u.drop m = u.drop o := by
  subst ho
  have h0 : o < u.length := by omega
  have b0 := getD_lt_of_AllBytes u hb o h0
  rw [List.drop_eq_getElem_cons h0]
  simp only [List.getD_eq_getElem u 0 h0, List.cons_append, List.nil_append,
    List.cons.injEq]
  rw [List.getD_eq_getElem u 0 h0] at b0
  exact ⟨by omega, trivial⟩

theorem decodePresetHeader_rt (u : List Nat) (hb : AllBytes u)
    (hl : 38 ≤ u.length) :
    encodePresetHeader (decodePresetHeader u).1 ++ (decodePresetHeader u).2 = u := by
  simp only [decodePresetHeader, encodePresetHeader, List.append_assoc]
  rw [step32 34 38 u rfl hb (by omega), step32 30 34 u rfl hb (by omega),
    step32 26 30 u rfl hb (by omega), step16 24 26 u rfl hb (by omega),
    step16 22 24 u rfl hb (by omega), step16 20 22 u rfl hb (by omega),
    List.take_append_drop]

theorem decodePBagRec_rt (u : List Nat) (hb : AllBytes u) (hl : 4 ≤ u.length) :
    encodePBagRec (decodePBagRec u).1 ++ (decodePBagRec u).2 = u := by
  simp only [decodePBagRec, encodePBagRec, List.append_assoc]
  rw [step16 2 4 u rfl hb (by omega), step16 0 2 u rfl hb (by omega),
    List.drop_zero]

theorem decodeModulator_rt (u : List Nat) (hb : AllBytes u) (hl : 10 ≤ u.length) :
    encodeModulator (decodeModulator u).1 ++ (decodeModulator u).2 = u := by
  simp only [decodeModulator, encodeModulator, List.append_assoc]
  rw [step16 8 10 u rfl hb (by omega), step16 6 8 u rfl hb (by omega),
    step16 4 6 u rfl hb (by omega), step16 2 4 u rfl hb (by omega),
    step16 0 2 u rfl hb (by omega), List.drop_zero]

theorem decodeGenerator_rt (u : List Nat) (hb : AllBytes u) (hl : 4 ≤ u.length) :
    encodeGenerator (decodeGenerator u).1 ++ (decodeGenerator u).2 = u := by
  simp only [decodeGenerator, encodeGenerator, List.append_assoc]
  rw [step16 2 4 u rfl hb (by omega), step16 0 2 u rfl hb (by omega),
    List.drop_zero]

theorem decodeInstrument_rt (u : List Nat) (hb : AllBytes u) (hl : 22 ≤ u.length) :
    encodeInstrument (decodeInstrument u).1 ++ (decodeInstrument u).2 = u := by
  simp only [decodeInstrument, encodeInstrument, List.append_assoc]
  rw [step16 20 22 u rfl hb (by omega), List.take_append_drop]

theorem decodeIBagRec_rt (u : List Nat) (hb : AllBytes u) (hl : 4 ≤ u.length) :
    encodeIBagRec (decodeIBagRec u).1 ++ (decodeIBagRec u).2 = u := by
  simp only [decodeIBagRec, encodeIBagRec, List.append_assoc]
  rw [step16 2 4 u rfl hb (by omega), step16 0 2 u rfl hb (by omega),
    List.drop_zero]

theorem decodeSampleHeader_rt (u : List Nat) (hb : AllBytes u)
    (hl : 46 ≤ u.length) :
    encodeSampleHeader (decodeSampleHeader u).1 ++ (decodeSampleHeader u).2 = u := by
  simp only [decodeSampleHeader, encodeSampleHeader, List.append_assoc]
  rw [step16 44 46 u rfl hb (by omega), step16 42 44 u rfl hb (by omega),
    step8 41 42 u rfl hb (by omega), step8 40 41 u rfl hb (by omega),
    step32 36 40 u rfl hb (by omega), step32 32 36 u rfl hb (by omega),
    step32 28 32 u rfl hb (by omega), step32 24 28 u rfl hb (by omega),
    step32 20 24 u rfl hb (by omega), List.take_append_drop]

theorem decodeRecords_rt {α : Type} (dec : List Nat → α × List Nat)
    (enc : α → List Nat) (w : Nat)
    (hstep : ∀ u, AllBytes u → w ≤ u.length → enc (dec u).1 ++ (dec u).2 = u)
    (hdrop : ∀ u, (dec u).2 = u.drop w) :
    ∀ (k : Nat) (d : List Nat), AllBytes d → d.length = w * k →
      ((decodeRecords dec k d).map enc).flatten = d := by
  intro k
  induction k with
  | zero =>
    intro d _ hlen
    have hnil : d = [] := List.eq_nil_of_length_eq_zero (by omega)
    subst hnil
    rfl
  | succ k ih =>
    intro d hb hlen
    have hwle : w ≤ d.length := by
      rw [hlen, Nat.mul_succ]
      omega
    simp only [decodeRecords, List.map_cons, List.flatten_cons]
    rw [ih ((dec d).2)
      (by rw [hdrop]; exact fun b hbm => hb b (List.mem_of_mem_drop hbm))
      (by rw [hdrop, List.length_drop, hlen, Nat.mul_succ]; omega)]
    exact hstep d hb hwle

theorem hydraLens_apply (s : SoundFontHydra) (t : Tag) (d : List Nat)
    (hm : t ∈ hydraTagList) (hsz : d.length % hydraWidth t = 0) :
    hydraLens (applyHydraChunk s (t, d)) t = d.length / hydraWidth t := by
  simp only [hydraTagList, List.mem_cons, List.not_mem_nil, or_false] at hm
  rcases hm with rfl | rfl | rfl | rfl | rfl | rfl | rfl | rfl | rfl
  · rw [show hydraWidth phdrTag = 38 from rfl] at hsz ⊢
    rw [applyHydraChunk_phdr, if_pos hsz,
      show ∀ x : SoundFontHydra, hydraLens x phdrTag = x.Headers.length
        from fun _ => rfl]
    exact decodeRecords_length _ _ _
  · rw [show hydraWidth pbagTag = 4 from rfl] at hsz ⊢
    rw [applyHydraChunk_pbag, if_pos hsz,
      show ∀ x : SoundFontHydra, hydraLens x pbagTag = x.PBag.length
        from fun _ => rfl]
    exact decodeRecords_length _ _ _
  · rw [show hydraWidth pmodTag = 10 from rfl] at hsz ⊢
    rw [applyHydraChunk_pmod, if_pos hsz,
      show ∀ x : SoundFontHydra, hydraLens x pmodTag = x.PresetModulators.length
        from fun _ => rfl]
    exact decodeRecords_length _ _ _
  · rw [show hydraWidth pgenTag = 4 from rfl] at hsz ⊢
    rw [applyHydraChunk_pgen, if_pos hsz,
      show ∀ x : SoundFontHydra, hydraLens x pgenTag = x.PresetGenerators.length
        from fun _ => rfl]
    exact decodeRecords_length _ _ _
  · rw [show hydraWidth instTag = 22 from rfl] at hsz ⊢
    rw [applyHydraChunk_inst, if_pos hsz,
      show ∀ x : SoundFontHydra, hydraLens x instTag = x.Instuments.length
        from fun _ => rfl]
    exact decodeRecords_length _ _ _
  · rw [show hydraWidth ibagTag = 4 from rfl] at hsz ⊢
    rw [applyHydraChunk_ibag, if_pos hsz,
      show ∀ x : SoundFontHydra, hydraLens x ibagTag = x.IBag.length
        from fun _ => rfl]
    exact decodeRecords_length _ _ _
  · rw [show hydraWidth imodTag = 10 from rfl] at hsz ⊢
    rw [applyHydraChunk_imod, if_pos hsz,
      show ∀ x : SoundFontHydra, hydraLens x imodTag = x.InstrumentModulators.length
        from fun _ => rfl]
    exact decodeRecords_length _ _ _
  · rw [show hydraWidth igenTag = 4 from rfl] at hsz ⊢
    rw [applyHydraChunk_igen, if_pos hsz,
      show ∀ x : SoundFontHydra, hydraLens x igenTag = x.InstrumentGenerators.length
        from fun _ => rfl]
    exact decodeRecords_length _ _ _
  · rw [show hydraWidth shdrTag = 46 from rfl] at hsz ⊢
    rw [applyHydraChunk_shdr, if_pos hsz,
      show ∀ x : SoundFontHydra, hydraLens x shdrTag = x.Samples.length
        from fun _ => rfl]
    exact decodeRecords_length _ _ _

/-! ## Support lemmas for the claims -/

theorem expectChunk_mk (t : Tag) (d tail : List Nat)
    (h : d.length < 4294967296) :
    expectChunk t (mkChunkBytes t d ++ tail) = .ok (⟨t, d.length, d⟩, tail) := by
  simp [expectChunk, parseChunk_mk t d tail h]

theorem expectChunk_nil (t : Tag) : expectChunk t [] = .error .eof := rfl

theorem map_range_getD (d : List Nat) :
    (List.range d.length).map (fun i => d.getD i 0) = d := by
  apply List.ext_getElem (by simp)
  intro i h1 h2
  simp [List.getD, List.getElem?_eq_getElem h2]

theorem processHydraChunk_szErr (s : SoundFontHydra) (t : Tag) (d : List Nat)
    (hm : t ∈ hydraTagList) (hsz : d.length % hydraWidth t ≠ 0) :
    processHydraChunk s ⟨t, d.length, d⟩ =
      .error (.invalidChunkSize t d.length) := by
  simp only [hydraTagList, List.mem_cons, List.not_mem_nil, or_false] at hm
  rcases hm with rfl | rfl | rfl | rfl | rfl | rfl | rfl | rfl | rfl
  · rw [show hydraWidth phdrTag = 38 from rfl] at hsz
    simp [processHydraChunk, hsz]
  · rw [show hydraWidth pbagTag = 4 from rfl] at hsz
    simp [processHydraChunk, hsz, pbagTag, phdrTag]
  · rw [show hydraWidth pmodTag = 10 from rfl] at hsz
    simp [processHydraChunk, hsz, pmodTag, phdrTag, pbagTag]
  · rw [show hydraWidth pgenTag = 4 from rfl] at hsz
    simp [processHydraChunk, hsz, pgenTag, phdrTag, pbagTag, pmodTag]
  · rw [show hydraWidth instTag = 22 from rfl] at hsz
    simp [processHydraChunk, hsz, instTag, phdrTag, pbagTag, pmodTag, pgenTag]
  · rw [show hydraWidth ibagTag = 4 from rfl] at hsz
    simp [processHydraChunk, hsz, ibagTag, phdrTag, pbagTag, pmodTag, pgenTag,
      instTag]
  · rw [show hydraWidth imodTag = 10 from rfl] at hsz
    simp [processHydraChunk, hsz, imodTag, phdrTag, pbagTag, pmodTag, pgenTag,
      instTag, ibagTag]
  · rw [show hydraWidth igenTag = 4 from rfl] at hsz
    simp [processHydraChunk, hsz, igenTag, phdrTag, pbagTag, pmodTag, pgenTag,
      instTag, ibagTag, imodTag]
  · rw [show hydraWidth shdrTag = 46 from rfl] at hsz
    simp [processHydraChunk, hsz, shdrTag, phdrTag, pbagTag, pmodTag, pgenTag,
      instTag, ibagTag, imodTag, igenTag]

theorem hydraAny_of_mem (cks : List (Tag × List Nat)) (t : Tag)
    (h : t ∈ cks.map Prod.fst) : cks.any (fun p => p.1 = t) = true := by
  rcases List.mem_map.mp h with ⟨p, hp, he⟩
  exact List.any_eq_true.mpr ⟨p, hp, by simp [he]⟩

theorem hydraAny_of_not_mem (cks : List (Tag × List Nat)) (t : Tag)
    (h : t ∉ cks.map Prod.fst) : cks.any (fun p => p.1 = t) = false := by
  rw [List.any_eq_false]
  intro p hp he
  exact h (List.mem_map.mpr ⟨p, hp, by simpa using he⟩)

theorem ReadSoundFontHydra_ok (cks : List (Tag × List Nat))
    (hwf : hydraWF cks) (hall : ∀ t ∈ hydraTagList, t ∈ cks.map Prod.fst) :
    ReadSoundFontHydra (chunksBytes cks) =
      .ok (cks.foldl applyHydraChunk hydraInit) := by
  unfold ReadSoundFontHydra
  rw [show chunksBytes cks = chunksBytes cks ++ [] from (List.append_nil _).symm,
    hydraRun_chunks cks [] hydraInit hydraSeenNone hwf, hydraRun_nil]
  obtain ⟨f1, f2, f3, f4, f5, f6, f7, f8, f9⟩ :=
    hydraSeenFold_fields cks hydraSeenNone
  have a1 : (hydraSeenFold hydraSeenNone cks).phdr = true := by
    rw [f1]
    simp [hydraSeenNone, hydraAny_of_mem cks phdrTag (hall phdrTag (by simp [hydraTagList]))]
  have a2 : (hydraSeenFold hydraSeenNone cks).pbag = true := by
    rw [f2]
    simp [hydraSeenNone, hydraAny_of_mem cks pbagTag (hall pbagTag (by simp [hydraTagList]))]
  have a3 : (hydraSeenFold hydraSeenNone cks).pmod = true := by
    rw [f3]
    simp [hydraSeenNone, hydraAny_of_mem cks pmodTag (hall pmodTag (by simp [hydraTagList]))]
  have a4 : (hydraSeenFold hydraSeenNone cks).pgen = true := by
    rw [f4]
    simp [hydraSeenNone, hydraAny_of_mem cks pgenTag (hall pgenTag (by simp [hydraTagList]))]
  have a5 : (hydraSeenFold hydraSeenNone cks).inst = true := by
    rw [f5]
    simp [hydraSeenNone, hydraAny_of_mem cks instTag (hall instTag (by simp [hydraTagList]))]
  have a6 : (hydraSeenFold hydraSeenNone cks).ibag = true := by
    rw [f6]
    simp [hydraSeenNone, hydraAny_of_mem cks ibagTag (hall ibagTag (by simp [hydraTagList]))]
  have a7 : (hydraSeenFold hydraSeenNone cks).imod = true := by
    rw [f7]
    simp [hydraSeenNone, hydraAny_of_mem cks imodTag (hall imodTag (by simp [hydraTagList]))]
  have a8 : (hydraSeenFold hydraSeenNone cks).igen = true := by
    rw [f8]
    simp [hydraSeenNone, hydraAny_of_mem cks igenTag (hall igenTag (by simp [hydraTagList]))]
  have a9 : (hydraSeenFold hydraSeenNone cks).shdr = true := by
    rw [f9]
    simp [hydraSeenNone, hydraAny_of_mem cks shdrTag (hall shdrTag (by simp [hydraTagList]))]
  simp [hydraFinish, a1, a2, a3, a4, a5, a6, a7, a8, a9]

theorem lastFold_not_mem (t : Tag) (cks : List (Tag × List Nat))
    (a : List Nat) (h : t ∉ cks.map Prod.fst) :
    cks.foldl (fun acc p => if p.1 = t then p.2 else acc) a = a := by
  induction cks generalizing a with
  | nil => rfl
  | cons q cks ih =>
    simp only [List.map_cons, List.mem_cons, not_or] at h
    rw [List.foldl_cons, if_neg (fun e => h.1 e.symm)]
    exact ih a h.2

theorem lastFold_init_irrel (t : Tag) (cks : List (Tag × List Nat))
    (h : t ∈ cks.map Prod.fst) (a b : List Nat) :
    cks.foldl (fun acc p => if p.1 = t then p.2 else acc) a =
      cks.foldl (fun acc p => if p.1 = t then p.2 else acc) b := by
  induction cks generalizing a b with
  | nil => simp at h
  | cons q cks ih =>
    by_cases hq : q.1 = t
    · rw [List.foldl_cons, List.foldl_cons, if_pos hq, if_pos hq]
    · simp only [List.map_cons, List.mem_cons] at h
      rcases h with h | h
      · exact absurd h.symm hq
      · rw [List.foldl_cons, List.foldl_cons, if_neg hq, if_neg hq]
        exact ih h a b

theorem hydraFold_lens_ne (cks : List (Tag × List Nat)) (s : SoundFontHydra)
    (t : Tag) (hm : t ∈ hydraTagList) (hmem : t ∉ cks.map Prod.fst) :
    hydraLens (cks.foldl applyHydraChunk s) t = hydraLens s t := by
  obtain ⟨g1, g2, g3, g4, g5, g6, g7, g8, g9⟩ := hydraFold_fields_ne cks s
  simp only [hydraTagList, List.mem_cons, List.not_mem_nil, or_false] at hm
  rcases hm with rfl | rfl | rfl | rfl | rfl | rfl | rfl | rfl | rfl
  · rw [show ∀ x : SoundFontHydra, hydraLens x phdrTag = x.Headers.length
      from fun _ => rfl, show ∀ x : SoundFontHydra,
      hydraLens x phdrTag = x.Headers.length from fun _ => rfl, g1 hmem]
  · rw [show ∀ x : SoundFontHydra, hydraLens x pbagTag = x.PBag.length
      from fun _ => rfl, show ∀ x : SoundFontHydra,
      hydraLens x pbagTag = x.PBag.length from fun _ => rfl, g2 hmem]
  · rw [show ∀ x : SoundFontHydra,
      hydraLens x pmodTag = x.PresetModulators.length from fun _ => rfl,
      show ∀ x : SoundFontHydra,
      hydraLens x pmodTag = x.PresetModulators.length from fun _ => rfl,
      g3 hmem]
  · rw [show ∀ x : SoundFontHydra,
      hydraLens x pgenTag = x.PresetGenerators.length from fun _ => rfl,
      show ∀ x : SoundFontHydra,
      hydraLens x pgenTag = x.PresetGenerators.length from fun _ => rfl,
      g4 hmem]
  · rw [show ∀ x : SoundFontHydra, hydraLens x instTag = x.Instuments.length
      from fun _ => rfl, show ∀ x : SoundFontHydra,
      hydraLens x instTag = x.Instuments.length from fun _ => rfl, g5 hmem]
  · rw [show ∀ x : SoundFontHydra, hydraLens x ibagTag = x.IBag.length
      from fun _ => rfl, show ∀ x : SoundFontHydra,
      hydraLens x ibagTag = x.IBag.length from fun _ => rfl, g6 hmem]
  · rw [show ∀ x : SoundFontHydra,
      hydraLens x imodTag = x.InstrumentModulators.length from fun _ => rfl,
      show ∀ x : SoundFontHydra,
      hydraLens x imodTag = x.InstrumentModulators.length from fun _ => rfl,
      g7 hmem]
  · rw [show ∀ x : SoundFontHydra,
      hydraLens x igenTag = x.InstrumentGenerators.length from fun _ => rfl,
      show ∀ x : SoundFontHydra,
      hydraLens x igenTag = x.InstrumentGenerators.length from fun _ => rfl,
      g8 hmem]
  · rw [show ∀ x : SoundFontHydra, hydraLens x shdrTag = x.Samples.length
      from fun _ => rfl, show ∀ x : SoundFontHydra,
      hydraLens x shdrTag = x.Samples.length from fun _ => rfl, g9 hmem]

theorem hydraFold_lens_last (t : Tag) (hm : t ∈ hydraTagList)
    (cks : List (Tag × List Nat)) :
    ∀ s : SoundFontHydra, hydraWF cks → t ∈ cks.map Prod.fst →
      hydraLens (cks.foldl applyHydraChunk s) t =
        (lastDataOf t cks).length / hydraWidth t := by
  induction cks with
  | nil => intro s _ hmem; simp at hmem
  | cons p cks ih =>
    intro s hwf hmem
    obtain ⟨t0, d0⟩ := p
    have hwf' : hydraWF cks := fun q hq => hwf q (List.mem_cons_of_mem _ hq)
    by_cases hmem2 : t ∈ cks.map Prod.fst
    · rw [List.foldl_cons, ih (applyHydraChunk s (t0, d0)) hwf' hmem2]
      unfold lastDataOf
      rw [List.foldl_cons]
      rw [lastFold_init_irrel t cks hmem2 (if (t0, d0).1 = t then (t0, d0).2 else []) []]
    · have ht0 : t0 = t := by
        simp only [List.map_cons, List.mem_cons] at hmem
        rcases hmem with h | h
        · exact h.symm
        · exact absurd h hmem2
      subst ht0
      rw [List.foldl_cons, hydraFold_lens_ne cks (applyHydraChunk s (t0, d0))
        t0 hm hmem2, hydraLens_apply s t0 d0 hm
        ((hwf (t0, d0) (List.mem_cons_self _ _)).2 hm)]
      unfold lastDataOf
      rw [List.foldl_cons, if_pos rfl, lastFold_not_mem t0 cks d0 hmem2]

theorem infoSeenGet_none (t : Tag) : infoSeenGet infoSeenNone t = false := by
  simp [infoSeenGet, infoSeenNone, ite_self]

/-! ## The claims -/

/-- C1: the specification says each `smpl` sample is the signed 16-bit
value assembled little-endian from payload bytes `2i` (low) and `2i+1`
(high).  The code (`samples.go`, sample loop) computes
`int16(data[i*2+1])<<8 | int16(data[i*2])<<8`, shifting BOTH bytes left
by 8 and discarding the low byte, contradicting the claim and the
code's own comment ("little endian (least significant byte first)"):
the payload `[1, 0]`, whose little-endian signed value is 1, decodes to
the bit pattern 256. -/
theorem c1_sample_decode_bug :
    ReadSoundFontSamples (mkChunkBytes smplTag [1, 0]) =
      .ok (⟨[256], []⟩, []) ∧ toInt16 256 ≠ 1 :=
  ⟨rfl, by decide⟩

/-- C8 counterexample: an `smpl` chunk with the odd byte length 1
decodes successfully (to zero samples) — the claim says an odd byte
length fails the decode, but the code never checks parity. -/
theorem c8_counterexample :
    ReadSoundFontSamples (mkChunkBytes smplTag [7]) = .ok (⟨[], []⟩, []) := rfl

/-- C8 amended: the sample decoder accepts an `smpl` chunk of any byte
length, even or odd; it produces `size / 2` (floor) 16-bit samples,
silently ignoring a trailing odd byte, and does not fail. -/
theorem c8_amended (d : List Nat) (h : d.length < 4294967296) :
    ∃ s : SoundFontSamples,
      ReadSoundFontSamples (mkChunkBytes smplTag d) = .ok (s, []) ∧
      s.SamplesHigher.length = d.length / 2 := by
  refine ⟨⟨(List.range (d.length / 2)).map (fun i =>
    Nat.lor ((d.getD (i * 2 + 1) 0 <<< 8) % 65536)
      ((d.getD (i * 2) 0 <<< 8) % 65536)), []⟩, ?_, by simp⟩
  rw [show mkChunkBytes smplTag d = mkChunkBytes smplTag d ++ []
    from (List.append_nil _).symm]
  simp only [ReadSoundFontSamples, expectChunk_mk smplTag d [] h,
    expectChunk_nil]

/-- C8 witness: the amended theorem at the concrete odd payload `[7]`. -/
theorem c8_amended_witness :
    ([7] : List Nat).length < 4294967296 ∧
    (∃ s : SoundFontSamples,
      ReadSoundFontSamples (mkChunkBytes smplTag [7]) = .ok (s, []) ∧
      s.SamplesHigher.length = ([7] : List Nat).length / 2) :=
  ⟨by decide, c8_amended [7] (by decide)⟩

/-- C2 counterexample: `smpl` with four payload bytes (two 16-bit
samples) followed by `sm24` with ONE byte decodes successfully with a
one-entry low-byte list — the claim requires failure with
`InvalidChunkSize` whenever the `sm24` length differs from the sample
count (here 1 ≠ 2), but the code never compares the lengths. -/
theorem c2_counterexample :
    ReadSoundFontSamples
        (mkChunkBytes smplTag [0, 0, 0, 0] ++ mkChunkBytes sm24Tag [5]) =
      .ok (⟨[0, 0], [5]⟩, []) ∧
    ([5] : List Nat).length ≠ ([0, 0] : List Nat).length :=
  ⟨rfl, by decide⟩

/-- C2 amended: a present `sm24` chunk is accepted at ANY byte length —
the decoder produces one signed 8-bit value per `sm24` payload byte
with no validation against the `smpl` sample count; an absent `sm24`
(clean end of input) still succeeds with an empty low-byte sequence. -/
theorem c2_amended (d1 d2 : List Nat) (h1 : d1.length < 4294967296)
    (h2 : d2.length < 4294967296) :
    (∃ s : SoundFontSamples,
      ReadSoundFontSamples
          (mkChunkBytes smplTag d1 ++ mkChunkBytes sm24Tag d2) =
        .ok (s, []) ∧ s.SamplesLower = d2) ∧
    (∃ s : SoundFontSamples,
      ReadSoundFontSamples (mkChunkBytes smplTag d1) = .ok (s, []) ∧
      s.SamplesLower = []) := by
  constructor
  · rw [show mkChunkBytes smplTag d1 ++ mkChunkBytes sm24Tag d2 =
      mkChunkBytes smplTag d1 ++ (mkChunkBytes sm24Tag d2 ++ [])
      from by simp]
    refine ⟨⟨(List.range (d1.length / 2)).map (fun i =>
      Nat.lor ((d1.getD (i * 2 + 1) 0 <<< 8) % 65536)
        ((d1.getD (i * 2) 0 <<< 8) % 65536)),
      (List.range d2.length).map (fun i => d2.getD i 0)⟩, ?_,
      map_range_getD d2⟩
    simp only [ReadSoundFontSamples, expectChunk_mk smplTag d1 _ h1,
      expectChunk_mk sm24Tag d2 [] h2]
  · refine ⟨⟨(List.range (d1.length / 2)).map (fun i =>
      Nat.lor ((d1.getD (i * 2 + 1) 0 <<< 8) % 65536)
        ((d1.getD (i * 2) 0 <<< 8) % 65536)), []⟩, ?_, rfl⟩
    rw [show mkChunkBytes smplTag d1 = mkChunkBytes smplTag d1 ++ []
      from (List.append_nil _).symm]
    simp only [ReadSoundFontSamples, expectChunk_mk smplTag d1 [] h1,
      expectChunk_nil]

/-- C2 witness: the amended theorem at `smpl` payload `[1, 2]` (one
sample) with an `sm24` payload `[3]` of length 1. -/
theorem c2_amended_witness :
    ([1, 2] : List Nat).length < 4294967296 ∧
    ([3] : List Nat).length < 4294967296 ∧
    ((∃ s : SoundFontSamples,
      ReadSoundFontSamples
          (mkChunkBytes smplTag [1, 2] ++ mkChunkBytes sm24Tag [3]) =
        .ok (s, []) ∧ s.SamplesLower = [3]) ∧
    (∃ s : SoundFontSamples,
      ReadSoundFontSamples (mkChunkBytes smplTag [1, 2]) = .ok (s, []) ∧
      s.SamplesLower = [])) :=
  ⟨by decide, by decide, c2_amended [1, 2] [3] (by decide) (by decide)⟩

/-- C4: the claim says every truncation — even inside a chunk's framing
— fails with `TruncatedInput` and is never treated as a normal end of a
list.  The code distinguishes only `io.EOF`: when the input ends
exactly at a field boundary inside a chunk (here: right after reading
the 4 tag bytes `INAM`, before any length byte), `binary.Read` returns
`io.EOF`, which the Info/Hydra list loops interpret as a clean end of
the list.  An Info list holding a complete `ifil` chunk followed by the
dangling 4 bytes `INAM` therefore decodes successfully with defaults,
silently swallowing the truncated chunk, instead of failing. -/
theorem c4_truncation_swallowed :
    ReadSoundFontInfo (INFOBytes ++ mkChunkBytes ifilTag [2, 0, 1, 0] ++
        [73, 78, 65, 77]) =
      .ok { infoInit with SfVersion := ⟨2, 1⟩, Engine := EMU8000 } := rfl

/-- C3 counterexample: a pdta list holding all nine recognized chunks,
each with declared size 0, decodes successfully — and every decoded
array (here `Headers`) has length 0, where the claim requires length at
least 1 (the sentinel).  The decoder never enforces a minimum record
count. -/
theorem c3_counterexample :
    ReadSoundFontHydra (chunksBytes (hydraTagList.map (fun t => (t, [])))) =
      .ok hydraInit ∧ hydraInit.Headers.length = 0 :=
  ⟨rfl, rfl⟩

/-- C3 amended: after a successful Hydra decode of a well-formed pdta
chunk sequence containing all nine tags, each of the nine record arrays
has exactly `size / width` records where `size` is the byte length of
the LAST chunk carrying that tag — in particular the arrays may be
empty (a zero-size chunk), so no minimum length of 1 is guaranteed. -/
theorem c3_amended (cks : List (Tag × List Nat)) (hwf : hydraWF cks)
    (hall : ∀ t ∈ hydraTagList, t ∈ cks.map Prod.fst) :
    ∃ h : SoundFontHydra, ReadSoundFontHydra (chunksBytes cks) = .ok h ∧
      ∀ t ∈ hydraTagList,
        hydraLens h t = (lastDataOf t cks).length / hydraWidth t :=
  ⟨cks.foldl applyHydraChunk hydraInit, ReadSoundFontHydra_ok cks hwf hall,
    fun t ht => hydraFold_lens_last t ht cks hydraInit hwf (hall t ht)⟩

/-- C3 witness: the amended theorem at the nine-zero-size-chunks input,
where every array comes out empty. -/
theorem c3_amended_witness :
    hydraWF (hydraTagList.map (fun t => (t, ([] : List Nat)))) ∧
    (∀ t ∈ hydraTagList,
      t ∈ (hydraTagList.map (fun t => (t, ([] : List Nat)))).map Prod.fst) ∧
    ∃ h : SoundFontHydra,
      ReadSoundFontHydra
          (chunksBytes (hydraTagList.map (fun t => (t, ([] : List Nat))))) =
        .ok h ∧
      ∀ t ∈ hydraTagList, hydraLens h t =
        (lastDataOf t (hydraTagList.map (fun t => (t, ([] : List Nat))))).length /
          hydraWidth t :=
  ⟨by decide, by decide,
    c3_amended (hydraTagList.map (fun t => (t, ([] : List Nat)))) (by decide)
      (by decide)⟩

/-- C5: for each of the nine recognized Hydra tags, a chunk whose
declared byte length is not a multiple of the tag's record width (38,
4, 10, 4, 22, 4, 10, 4, 46) makes the whole Hydra decode fail with
`InvalidChunkSize` the moment it is processed (whatever follows it);
and a chunk whose length is a multiple of the width is processed
successfully into an array of exactly `length / width` records. -/
theorem c5_width_check :
    (∀ (cks : List (Tag × List Nat)) (t : Tag) (d rest : List Nat),
      hydraWF cks → t ∈ hydraTagList → d.length < 4294967296 →
      d.length % hydraWidth t ≠ 0 →
      ReadSoundFontHydra (chunksBytes cks ++ (mkChunkBytes t d ++ rest)) =
        .error (.invalidChunkSize t d.length)) ∧
    (∀ (s : SoundFontHydra) (t : Tag) (d : List Nat),
      t ∈ hydraTagList → d.length % hydraWidth t = 0 →
      ∃ s' : SoundFontHydra, processHydraChunk s ⟨t, d.length, d⟩ = .ok s' ∧
        hydraLens s' t = d.length / hydraWidth t) := by
  constructor
  · intro cks t d rest hwf hm h32 hsz
    unfold ReadSoundFontHydra
    rw [hydraRun_chunks cks (mkChunkBytes t d ++ rest) hydraInit
      hydraSeenNone hwf]
    exact hydraRun_procErr _ _ _ ⟨t, d.length, d⟩ rest _
      (parseChunk_mk t d rest h32) hm (processHydraChunk_szErr _ t d hm hsz)
  · intro s t d hm hsz
    exact ⟨applyHydraChunk s (t, d), processHydraChunk_wf s t d hm hsz,
      hydraLens_apply s t d hm hsz⟩

/-- C5 witness: the failure half at a 1-byte `phdr` chunk (1 is not a
multiple of 38), the success half at a 4-byte `pbag` chunk. -/
theorem c5_width_check_witness :
    (hydraWF [] ∧ phdrTag ∈ hydraTagList ∧
      ([0] : List Nat).length < 4294967296 ∧
      ([0] : List Nat).length % hydraWidth phdrTag ≠ 0 ∧
      ReadSoundFontHydra (chunksBytes [] ++ (mkChunkBytes phdrTag [0] ++ [])) =
        .error (.invalidChunkSize phdrTag 1)) ∧
    (pbagTag ∈ hydraTagList ∧ ([1, 0, 2, 0] : List Nat).length % hydraWidth pbagTag = 0 ∧
      ∃ s' : SoundFontHydra,
        processHydraChunk hydraInit ⟨pbagTag, 4, [1, 0, 2, 0]⟩ = .ok s' ∧
        hydraLens s' pbagTag = 1) :=
  ⟨⟨by decide, by decide, by decide, by decide,
    c5_width_check.1 [] phdrTag [0] [] (by decide) (by decide) (by decide)
      (by decide)⟩,
   ⟨by decide, by decide, by
    have h := c5_width_check.2 hydraInit pbagTag [1, 0, 2, 0] (by decide)
      (by decide)
    simpa using h⟩⟩

/-- C6: the Hydra decode of a well-formed pdta chunk sequence fails
with `MissingChunk` naming the absent tag whenever exactly one of the
nine mandatory tags never occurs (the other eight all occurring), and
succeeds whenever all nine tags occur (in particular for a list holding
exactly one well-formed chunk per tag and nothing else). -/
theorem c6_mandatory_tags :
    (∀ (cks : List (Tag × List Nat)) (t : Tag),
      hydraWF cks → t ∈ hydraTagList → t ∉ cks.map Prod.fst →
      (∀ t' ∈ hydraTagList, t' ≠ t → t' ∈ cks.map Prod.fst) →
      ReadSoundFontHydra (chunksBytes cks) = .error (.missingChunk t)) ∧
    (∀ cks : List (Tag × List Nat),
      hydraWF cks → (∀ t ∈ hydraTagList, t ∈ cks.map Prod.fst) →
      ∃ h : SoundFontHydra, ReadSoundFontHydra (chunksBytes cks) = .ok h) := by
  constructor
  · intro cks t hwf hm habs hoth
    unfold ReadSoundFontHydra
    rw [show chunksBytes cks = chunksBytes cks ++ []
      from (List.append_nil _).symm,
      hydraRun_chunks cks [] hydraInit hydraSeenNone hwf, hydraRun_nil]
    obtain ⟨f1, f2, f3, f4, f5, f6, f7, f8, f9⟩ :=
      hydraSeenFold_fields cks hydraSeenNone
    have hfalse : cks.any (fun p => p.1 = t) = false :=
      hydraAny_of_not_mem cks t habs
    have b1 : (hydraSeenFold hydraSeenNone cks).phdr =
        cks.any (fun p => p.1 = phdrTag) := by rw [f1]; simp [hydraSeenNone]
    have b2 : (hydraSeenFold hydraSeenNone cks).pbag =
        cks.any (fun p => p.1 = pbagTag) := by rw [f2]; simp [hydraSeenNone]
    have b3 : (hydraSeenFold hydraSeenNone cks).pmod =
        cks.any (fun p => p.1 = pmodTag) := by rw [f3]; simp [hydraSeenNone]
    have b4 : (hydraSeenFold hydraSeenNone cks).pgen =
        cks.any (fun p => p.1 = pgenTag) := by rw [f4]; simp [hydraSeenNone]
    have b5 : (hydraSeenFold hydraSeenNone cks).inst =
        cks.any (fun p => p.1 = instTag) := by rw [f5]; simp [hydraSeenNone]
    have b6 : (hydraSeenFold hydraSeenNone cks).ibag =
        cks.any (fun p => p.1 = ibagTag) := by rw [f6]; simp [hydraSeenNone]
    have b7 : (hydraSeenFold hydraSeenNone cks).imod =
        cks.any (fun p => p.1 = imodTag) := by rw [f7]; simp [hydraSeenNone]
    have b8 : (hydraSeenFold hydraSeenNone cks).igen =
        cks.any (fun p => p.1 = igenTag) := by rw [f8]; simp [hydraSeenNone]
    have b9 : (hydraSeenFold hydraSeenNone cks).shdr =
        cks.any (fun p => p.1 = shdrTag) := by rw [f9]; simp [hydraSeenNone]
    simp only [hydraFinish, b1, b2, b3, b4, b5, b6, b7, b8, b9]
    simp only [hydraTagList, List.mem_cons, List.not_mem_nil, or_false] at hm
    rcases hm with rfl | rfl | rfl | rfl | rfl | rfl | rfl | rfl | rfl
    · simp [hfalse]
    · simp [hfalse,
        hydraAny_of_mem cks phdrTag (hoth phdrTag (by simp [hydraTagList]) (by decide))]
    · simp [hfalse,
        hydraAny_of_mem cks phdrTag (hoth phdrTag (by simp [hydraTagList]) (by decide)),
        hydraAny_of_mem cks pbagTag (hoth pbagTag (by simp [hydraTagList]) (by decide))]
    · simp [hfalse,
        hydraAny_of_mem cks phdrTag (hoth phdrTag (by simp [hydraTagList]) (by decide)),
        hydraAny_of_mem cks pbagTag (hoth pbagTag (by simp [hydraTagList]) (by decide)),
        hydraAny_of_mem cks pmodTag (hoth pmodTag (by simp [hydraTagList]) (by decide))]
    · simp [hfalse,
        hydraAny_of_mem cks phdrTag (hoth phdrTag (by simp [hydraTagList]) (by decide)),
        hydraAny_of_mem cks pbagTag (hoth pbagTag (by simp [hydraTagList]) (by decide)),
        hydraAny_of_mem cks pmodTag (hoth pmodTag (by simp [hydraTagList]) (by decide)),
        hydraAny_of_mem cks pgenTag (hoth pgenTag (by simp [hydraTagList]) (by decide))]
    · simp [hfalse,
        hydraAny_of_mem cks phdrTag (hoth phdrTag (by simp [hydraTagList]) (by decide)),
        hydraAny_of_mem cks pbagTag (hoth pbagTag (by simp [hydraTagList]) (by decide)),
        hydraAny_of_mem cks pmodTag (hoth pmodTag (by simp [hydraTagList]) (by decide)),
        hydraAny_of_mem cks pgenTag (hoth pgenTag (by simp [hydraTagList]) (by decide)),
        hydraAny_of_mem cks instTag (hoth instTag (by simp [hydraTagList]) (by decide))]
    · simp [hfalse,
        hydraAny_of_mem cks phdrTag (hoth phdrTag (by simp [hydraTagList]) (by decide)),
        hydraAny_of_mem cks pbagTag (hoth pbagTag (by simp [hydraTagList]) (by decide)),
        hydraAny_of_mem cks pmodTag (hoth pmodTag (by simp [hydraTagList]) (by decide)),
        hydraAny_of_mem cks pgenTag (hoth pgenTag (by simp [hydraTagList]) (by decide)),
        hydraAny_of_mem cks instTag (hoth instTag (by simp [hydraTagList]) (by decide)),
        hydraAny_of_mem cks ibagTag (hoth ibagTag (by simp [hydraTagList]) (by decide))]
    · simp [hfalse,
        hydraAny_of_mem cks phdrTag (hoth phdrTag (by simp [hydraTagList]) (by decide)),
        hydraAny_of_mem cks pbagTag (hoth pbagTag (by simp [hydraTagList]) (by decide)),
        hydraAny_of_mem cks pmodTag (hoth pmodTag (by simp [hydraTagList]) (by decide)),
        hydraAny_of_mem cks pgenTag (hoth pgenTag (by simp [hydraTagList]) (by decide)),
        hydraAny_of_mem cks instTag (hoth instTag (by simp [hydraTagList]) (by decide)),
        hydraAny_of_mem cks ibagTag (hoth ibagTag (by simp [hydraTagList]) (by decide)),
        hydraAny_of_mem cks imodTag (hoth imodTag (by simp [hydraTagList]) (by decide))]
    · simp [hfalse,
        hydraAny_of_mem cks phdrTag (hoth phdrTag (by simp [hydraTagList]) (by decide)),
        hydraAny_of_mem cks pbagTag (hoth pbagTag (by simp [hydraTagList]) (by decide)),
        hydraAny_of_mem cks pmodTag (hoth pmodTag (by simp [hydraTagList]) (by decide)),
        hydraAny_of_mem cks pgenTag (hoth pgenTag (by simp [hydraTagList]) (by decide)),
        hydraAny_of_mem cks instTag (hoth instTag (by simp [hydraTagList]) (by decide)),
        hydraAny_of_mem cks ibagTag (hoth ibagTag (by simp [hydraTagList]) (by decide)),
        hydraAny_of_mem cks imodTag (hoth imodTag (by simp [hydraTagList]) (by decide)),
        hydraAny_of_mem cks igenTag (hoth igenTag (by simp [hydraTagList]) (by decide))]
  · intro cks hwf hall
    exact ⟨cks.foldl applyHydraChunk hydraInit, ReadSoundFontHydra_ok cks hwf hall⟩

/-- C6 witness: the missing-tag half at the eight-chunk list lacking
`shdr`; the success half at the nine-chunk list holding one zero-size
chunk per tag. -/
theorem c6_mandatory_tags_witness :
    (hydraWF ((hydraTagList.take 8).map (fun t => (t, ([] : List Nat)))) ∧
      shdrTag ∈ hydraTagList ∧
      shdrTag ∉ ((hydraTagList.take 8).map (fun t => (t, ([] : List Nat)))).map Prod.fst ∧
      (∀ t' ∈ hydraTagList, t' ≠ shdrTag →
        t' ∈ ((hydraTagList.take 8).map (fun t => (t, ([] : List Nat)))).map Prod.fst) ∧
      ReadSoundFontHydra
          (chunksBytes ((hydraTagList.take 8).map (fun t => (t, ([] : List Nat))))) =
        .error (.missingChunk shdrTag)) ∧
    (hydraWF (hydraTagList.map (fun t => (t, ([] : List Nat)))) ∧
      (∀ t ∈ hydraTagList,
        t ∈ (hydraTagList.map (fun t => (t, ([] : List Nat)))).map Prod.fst) ∧
      ∃ h : SoundFontHydra,
        ReadSoundFontHydra
            (chunksBytes (hydraTagList.map (fun t => (t, ([] : List Nat))))) =
          .ok h) :=
  ⟨⟨by decide, by decide, by decide, by decide,
    c6_mandatory_tags.1 ((hydraTagList.take 8).map (fun t => (t, ([] : List Nat))))
      shdrTag (by decide) (by decide) (by decide) (by decide)⟩,
   ⟨by decide, by decide,
    c6_mandatory_tags.2 (hydraTagList.map (fun t => (t, ([] : List Nat))))
      (by decide) (by decide)⟩⟩

/-- C7: for every well-formed Info list (sizes within their caps, no
recognized tag duplicated — so the iteration reaches end of input): if
`ifil` never occurs the decode fails with `MissingRequiredField`; if
`ifil` occurs and `isng` does not, the decode succeeds and the
sound-engine field is the literal `"EMU8000"`. -/
theorem c7_info_defaults (cks : List (Tag × List Nat)) (hwf : infoWF cks) :
    (ifilTag ∉ cks.map Prod.fst →
      ReadSoundFontInfo (INFOBytes ++ chunksBytes cks) =
        .error .missingRequiredField) ∧
    (ifilTag ∈ cks.map Prod.fst → isngTag ∉ cks.map Prod.fst →
      ∃ info : SoundFontInfo,
        ReadSoundFontInfo (INFOBytes ++ chunksBytes cks) = .ok info ∧
        info.Engine = EMU8000) := by
  have hrun : ReadSoundFontInfo (INFOBytes ++ chunksBytes cks) =
      infoFinish (cks.foldl applyInfoChunk infoInit)
        (infoSeenFold infoSeenNone cks) := by
    rw [ReadSoundFontInfo_INFO,
      show chunksBytes cks = chunksBytes cks ++ []
        from (List.append_nil _).symm,
      infoRun_chunks cks [] infoInit infoSeenNone hwf.1 hwf.2
        (fun p _ _ => infoSeenGet_none p.1), infoRun_nil]
  obtain ⟨g1, g2⟩ := infoSeenFold_ifil_isng cks infoSeenNone
  constructor
  · intro habs
    have hifil : (infoSeenFold infoSeenNone cks).ifil = false := by
      rw [g1]; simp [infoSeenNone, hydraAny_of_not_mem cks ifilTag habs]
    rw [hrun]
    unfold infoFinish
    rw [if_pos (by simp [hifil])]
  · intro hmem habs
    have hifil : (infoSeenFold infoSeenNone cks).ifil = true := by
      rw [g1]; simp [infoSeenNone, hydraAny_of_mem cks ifilTag hmem]
    have hisng : (infoSeenFold infoSeenNone cks).isng = false := by
      rw [g2]; simp [infoSeenNone, hydraAny_of_not_mem cks isngTag habs]
    rw [hrun]
    refine ⟨{ cks.foldl applyInfoChunk infoInit with Engine := EMU8000 }, ?_, rfl⟩
    unfold infoFinish
    rw [if_neg (by simp [hifil]), if_pos (by simp [hisng])]

/-- C7 witness: the missing-`ifil` half at the empty Info list, the
default-engine half at the list holding just `ifil` with version 2.1. -/
theorem c7_info_defaults_witness :
    (infoWF [] ∧ ifilTag ∉ ([] : List (Tag × List Nat)).map Prod.fst ∧
      ReadSoundFontInfo (INFOBytes ++ chunksBytes []) =
        .error .missingRequiredField) ∧
    (infoWF [(ifilTag, [2, 0, 1, 0])] ∧
      ifilTag ∈ ([(ifilTag, [2, 0, 1, 0])] : List (Tag × List Nat)).map Prod.fst ∧
      isngTag ∉ ([(ifilTag, [2, 0, 1, 0])] : List (Tag × List Nat)).map Prod.fst ∧
      ∃ info : SoundFontInfo,
        ReadSoundFontInfo
            (INFOBytes ++ chunksBytes [(ifilTag, [2, 0, 1, 0])]) =
          .ok info ∧ info.Engine = EMU8000) :=
  ⟨⟨by decide, by decide,
    (c7_info_defaults [] (by decide)).1 (by decide)⟩,
   ⟨by decide, by decide, by decide,
    (c7_info_defaults [(ifilTag, [2, 0, 1, 0])] (by decide)).2 (by decide)
      (by decide)⟩⟩

/-- C9: decode/encode round-trip for every fixed-width Hydra record
shape: for any byte string whose length is an exact multiple of the
record width, decoding it into `length / width` records (all
multi-byte fields little-endian) and re-encoding the decoded fields in
the same layout reproduces the original bytes exactly — one conjunct
per tag (phdr 38, pbag 4, pmod 10, pgen 4, inst 22, ibag 4, imod 10,
igen 4, shdr 46; the modulator/generator shapes are shared between the
preset and instrument tags). -/
theorem c9_record_roundtrip (d1 d2 d3 d4 d5 d6 d7 d8 d9 : List Nat)
    (hb1 : AllBytes d1) (hl1 : d1.length % 38 = 0)
    (hb2 : AllBytes d2) (hl2 : d2.length % 4 = 0)
    (hb3 : AllBytes d3) (hl3 : d3.length % 10 = 0)
    (hb4 : AllBytes d4) (hl4 : d4.length % 4 = 0)
    (hb5 : AllBytes d5) (hl5 : d5.length % 22 = 0)
    (hb6 : AllBytes d6) (hl6 : d6.length % 4 = 0)
    (hb7 : AllBytes d7) (hl7 : d7.length % 10 = 0)
    (hb8 : AllBytes d8) (hl8 : d8.length % 4 = 0)
    (hb9 : AllBytes d9) (hl9 : d9.length % 46 = 0) :
    ((decodeRecords decodePresetHeader (d1.length / 38) d1).map
      encodePresetHeader).flatten = d1 ∧
    ((decodeRecords decodePBagRec (d2.length / 4) d2).map
      encodePBagRec).flatten = d2 ∧
    ((decodeRecords decodeModulator (d3.length / 10) d3).map
      encodeModulator).flatten = d3 ∧
    ((decodeRecords decodeGenerator (d4.length / 4) d4).map
      encodeGenerator).flatten = d4 ∧
    ((decodeRecords decodeInstrument (d5.length / 22) d5).map
      encodeInstrument).flatten = d5 ∧
    ((decodeRecords decodeIBagRec (d6.length / 4) d6).map
      encodeIBagRec).flatten = d6 ∧
    ((decodeRecords decodeModulator (d7.length / 10) d7).map
      encodeModulator).flatten = d7 ∧
    ((decodeRecords decodeGenerator (d8.length / 4) d8).map
      encodeGenerator).flatten = d8 ∧
    ((decodeRecords decodeSampleHeader (d9.length / 46) d9).map
      encodeSampleHeader).flatten = d9 :=
  ⟨decodeRecords_rt decodePresetHeader encodePresetHeader 38
    decodePresetHeader_rt (fun _ => rfl) (d1.length / 38) d1 hb1
    (Nat.mul_div_cancel' (Nat.dvd_of_mod_eq_zero hl1)).symm,
   decodeRecords_rt decodePBagRec encodePBagRec 4 decodePBagRec_rt
    (fun _ => rfl) (d2.length / 4) d2 hb2
    (Nat.mul_div_cancel' (Nat.dvd_of_mod_eq_zero hl2)).symm,
   decodeRecords_rt decodeModulator encodeModulator 10 decodeModulator_rt
    (fun _ => rfl) (d3.length / 10) d3 hb3
    (Nat.mul_div_cancel' (Nat.dvd_of_mod_eq_zero hl3)).symm,
   decodeRecords_rt decodeGenerator encodeGenerator 4 decodeGenerator_rt
    (fun _ => rfl) (d4.length / 4) d4 hb4
    (Nat.mul_div_cancel' (Nat.dvd_of_mod_eq_zero hl4)).symm,
   decodeRecords_rt decodeInstrument encodeInstrument 22 decodeInstrument_rt
    (fun _ => rfl) (d5.length / 22) d5 hb5
    (Nat.mul_div_cancel' (Nat.dvd_of_mod_eq_zero hl5)).symm,
   decodeRecords_rt decodeIBagRec encodeIBagRec 4 decodeIBagRec_rt
    (fun _ => rfl) (d6.length / 4) d6 hb6
    (Nat.mul_div_cancel' (Nat.dvd_of_mod_eq_zero hl6)).symm,
   decodeRecords_rt decodeModulator encodeModulator 10 decodeModulator_rt
    (fun _ => rfl) (d7.length / 10) d7 hb7
    (Nat.mul_div_cancel' (Nat.dvd_of_mod_eq_zero hl7)).symm,
   decodeRecords_rt decodeGenerator encodeGenerator 4 decodeGenerator_rt
    (fun _ => rfl) (d8.length / 4) d8 hb8
    (Nat.mul_div_cancel' (Nat.dvd_of_mod_eq_zero hl8)).symm,
   decodeRecords_rt decodeSampleHeader encodeSampleHeader 46
    decodeSampleHeader_rt (fun _ => rfl) (d9.length / 46) d9 hb9
    (Nat.mul_div_cancel' (Nat.dvd_of_mod_eq_zero hl9)).symm⟩

/-- C9 witness: the round-trip theorem at one concrete record-sized
byte string per shape (the bytes 0..width-1, exercising the
little-endian field order). -/
theorem c9_record_roundtrip_witness :
    AllBytes (List.range 38) ∧ (List.range 38).length % 38 = 0 ∧
    AllBytes (List.range 4) ∧ (List.range 4).length % 4 = 0 ∧
    AllBytes (List.range 10) ∧ (List.range 10).length % 10 = 0 ∧
    AllBytes (List.range 4) ∧ (List.range 4).length % 4 = 0 ∧
    AllBytes (List.range 22) ∧ (List.range 22).length % 22 = 0 ∧
    AllBytes (List.range 4) ∧ (List.range 4).length % 4 = 0 ∧
    AllBytes (List.range 10) ∧ (List.range 10).length % 10 = 0 ∧
    AllBytes (List.range 4) ∧ (List.range 4).length % 4 = 0 ∧
    AllBytes (List.range 46) ∧ (List.range 46).length % 46 = 0 ∧
    ((decodeRecords decodePresetHeader ((List.range 38).length / 38) (List.range 38)).map
      encodePresetHeader).flatten = (List.range 38) ∧
    ((decodeRecords decodePBagRec ((List.range 4).length / 4) (List.range 4)).map
      encodePBagRec).flatten = (List.range 4) ∧
    ((decodeRecords decodeModulator ((List.range 10).length / 10) (List.range 10)).map
      encodeModulator).flatten = (List.range 10) ∧
    ((decodeRecords decodeGenerator ((List.range 4).length / 4) (List.range 4)).map
      encodeGenerator).flatten = (List.range 4) ∧
    ((decodeRecords decodeInstrument ((List.range 22).length / 22) (List.range 22)).map
      encodeInstrument).flatten = (List.range 22) ∧
    ((decodeRecords decodeIBagRec ((List.range 4).length / 4) (List.range 4)).map
      encodeIBagRec).flatten = (List.range 4) ∧
    ((decodeRecords decodeModulator ((List.range 10).length / 10) (List.range 10)).map
      encodeModulator).flatten = (List.range 10) ∧
    ((decodeRecords decodeGenerator ((List.range 4).length / 4) (List.range 4)).map
      encodeGenerator).flatten = (List.range 4) ∧
    ((decodeRecords decodeSampleHeader ((List.range 46).length / 46) (List.range 46)).map
      encodeSampleHeader).flatten = (List.range 46) :=
  ⟨by decide, rfl, by decide, rfl, by decide, rfl, by decide, rfl,
   by decide, rfl, by decide, rfl, by decide, rfl, by decide, rfl,
   by decide, rfl,
   c9_record_roundtrip (List.range 38) (List.range 4) (List.range 10)
     (List.range 4) (List.range 22) (List.range 4) (List.range 10)
     (List.range 4) (List.range 46)
     (by decide) rfl (by decide) rfl (by decide) rfl (by decide) rfl
     (by decide) rfl (by decide) rfl (by decide) rfl (by decide) rfl
     (by decide) rfl⟩

/-- C10: a recognized Hydra tag occurring more than once in the pdta
list does not make the decode fail (no DuplicateField policy here):
with all nine tags present, an earlier occurrence of tag `t` in the
prefix, and `(t, d)` the last occurrence of `t`, the decode succeeds
and the final array for `t` holds exactly the records decoded from `d`
— the later occurrence's array replaced the earlier one's. -/
theorem c10_duplicate_last_wins
    (cks1 cks2 : List (Tag × List Nat)) (t : Tag) (d : List Nat)
    (hwf : hydraWF (cks1 ++ (t, d) :: cks2))
    (hm : t ∈ hydraTagList)
    (hdup : t ∈ cks1.map Prod.fst)
    (hlast : t ∉ cks2.map Prod.fst)
    (hall : ∀ t' ∈ hydraTagList, t' ∈ (cks1 ++ (t, d) :: cks2).map Prod.fst) :
    ∃ h : SoundFontHydra,
      ReadSoundFontHydra (chunksBytes (cks1 ++ (t, d) :: cks2)) = .ok h ∧
      (t = phdrTag →
        h.Headers = decodeRecords decodePresetHeader (d.length / 38) d) ∧
      (t = pbagTag → h.PBag = decodeRecords decodePBagRec (d.length / 4) d) ∧
      (t = pmodTag →
        h.PresetModulators = decodeRecords decodeModulator (d.length / 10) d) ∧
      (t = pgenTag →
        h.PresetGenerators = decodeRecords decodeGenerator (d.length / 4) d) ∧
      (t = instTag →
        h.Instuments = decodeRecords decodeInstrument (d.length / 22) d) ∧
      (t = ibagTag → h.IBag = decodeRecords decodeIBagRec (d.length / 4) d) ∧
      (t = imodTag →
        h.InstrumentModulators = decodeRecords decodeModulator (d.length / 10) d) ∧
      (t = igenTag →
        h.InstrumentGenerators = decodeRecords decodeGenerator (d.length / 4) d) ∧
      (t = shdrTag →
        h.Samples = decodeRecords decodeSampleHeader (d.length / 46) d) := by
  refine ⟨(cks1 ++ (t, d) :: cks2).foldl applyHydraChunk hydraInit,
    ReadSoundFontHydra_ok _ hwf hall, ?_⟩
  have hsz : d.length % hydraWidth t = 0 :=
    (hwf (t, d) (by simp)).2 hm
  rw [List.foldl_append, List.foldl_cons]
  obtain ⟨g1, g2, g3, g4, g5, g6, g7, g8, g9⟩ :=
    hydraFold_fields_ne cks2
      (applyHydraChunk (cks1.foldl applyHydraChunk hydraInit) (t, d))
  obtain ⟨a1, a2, a3, a4, a5, a6, a7, a8, a9⟩ :=
    applyHydraChunk_self (cks1.foldl applyHydraChunk hydraInit) d
  refine ⟨fun e => ?_, fun e => ?_, fun e => ?_, fun e => ?_, fun e => ?_,
    fun e => ?_, fun e => ?_, fun e => ?_, fun e => ?_⟩
  · subst e
    rw [show hydraWidth phdrTag = 38 from rfl] at hsz
    rw [g1 hlast, a1 hsz]
  · subst e
    rw [show hydraWidth pbagTag = 4 from rfl] at hsz
    rw [g2 hlast, a2 hsz]
  · subst e
    rw [show hydraWidth pmodTag = 10 from rfl] at hsz
    rw [g3 hlast, a3 hsz]
  · subst e
    rw [show hydraWidth pgenTag = 4 from rfl] at hsz
    rw [g4 hlast, a4 hsz]
  · subst e
    rw [show hydraWidth instTag = 22 from rfl] at hsz
    rw [g5 hlast, a5 hsz]
  · subst e
    rw [show hydraWidth ibagTag = 4 from rfl] at hsz
    rw [g6 hlast, a6 hsz]
  · subst e
    rw [show hydraWidth imodTag = 10 from rfl] at hsz
    rw [g7 hlast, a7 hsz]
  · subst e
    rw [show hydraWidth igenTag = 4 from rfl] at hsz
    rw [g8 hlast, a8 hsz]
  · subst e
    rw [show hydraWidth shdrTag = 46 from rfl] at hsz
    rw [g9 hlast, a9 hsz]

/-- C10 witness: the duplicate-tag theorem at a list holding one
zero-size chunk per tag followed by a second, 38-byte `phdr` chunk —
the final `Headers` array is the one decoded from the second chunk. -/
theorem c10_duplicate_last_wins_witness :
    hydraWF ((hydraTagList.map (fun t => (t, ([] : List Nat)))) ++
      (phdrTag, List.range 38) :: []) ∧
    phdrTag ∈ hydraTagList ∧
    phdrTag ∈ (hydraTagList.map (fun t => (t, ([] : List Nat)))).map Prod.fst ∧
    phdrTag ∉ ([] : List (Tag × List Nat)).map Prod.fst ∧
    (∀ t' ∈ hydraTagList,
      t' ∈ ((hydraTagList.map (fun t => (t, ([] : List Nat)))) ++
        (phdrTag, List.range 38) :: []).map Prod.fst) ∧
    ∃ h : SoundFontHydra,
      ReadSoundFontHydra
          (chunksBytes ((hydraTagList.map (fun t => (t, ([] : List Nat)))) ++
            (phdrTag, List.range 38) :: [])) = .ok h ∧
      (phdrTag = phdrTag → h.Headers =
        decodeRecords decodePresetHeader ((List.range 38).length / 38)
          (List.range 38)) ∧
      (phdrTag = pbagTag → h.PBag =
        decodeRecords decodePBagRec ((List.range 38).length / 4)
          (List.range 38)) ∧
      (phdrTag = pmodTag → h.PresetModulators =
        decodeRecords decodeModulator ((List.range 38).length / 10)
          (List.range 38)) ∧
      (phdrTag = pgenTag → h.PresetGenerators =
        decodeRecords decodeGenerator ((List.range 38).length / 4)
          (List.range 38)) ∧
      (phdrTag = instTag → h.Instuments =
        decodeRecords decodeInstrument ((List.range 38).length / 22)
          (List.range 38)) ∧
      (phdrTag = ibagTag → h.IBag =
        decodeRecords decodeIBagRec ((List.range 38).length / 4)
          (List.range 38)) ∧
      (phdrTag = imodTag → h.InstrumentModulators =
        decodeRecords decodeModulator ((List.range 38).length / 10)
          (List.range 38)) ∧
      (phdrTag = igenTag → h.InstrumentGenerators =
        decodeRecords decodeGenerator ((List.range 38).length / 4)
          (List.range 38)) ∧
      (phdrTag = shdrTag → h.Samples =
        decodeRecords decodeSampleHeader ((List.range 38).length / 46)
          (List.range 38)) :=
  ⟨by decide, by decide, by decide, by decide, by decide,
   c10_duplicate_last_wins (hydraTagList.map (fun t => (t, ([] : List Nat))))
     [] phdrTag (List.range 38) (by decide) (by decide) (by decide)
     (by decide) (by decide)⟩
